import Mathlib

/-!
Shallow embedding of the `chibiki` tower-defense engine
(`src/internal/chibiki/engine.go`, `player.go`, unit-stat declarations) of the
Five3Space server, together with the slice of `src/cmd/server/main.go` that
wires it up.  Go `float64` values are modelled as `ℚ`, `int` as `Int`, Go maps
as association lists.  Sources of nondeterminism in the Go code are taken as
explicit parameters: the wall clock (`now`), freshly generated entity ids,
the shuffled decks produced by `rand.Shuffle`, and the real square root used
by `math.Hypot` for movement normalisation (distance *comparisons* are done
exactly on squares, which agrees with the source's comparisons of
`math.Hypot` values against non-negative bounds).  The `OnGameOver` callback
dispatch is recorded in a `callbackLog` field so that "the settlement
callback fires exactly once" is observable in the model.
-/

namespace Chibiki

/-- Constants from engine.go lines 13-22. -/
def TickRate : ℚ := 30

def LaneLeftX : ℚ := 3.5

def LaneRightX : ℚ := 14.5

def BridgeY : ℚ := 16

def DurationNormal : ℚ := 120

def DurationOvertime : ℚ := 90

/-- Static unit stats (struct `UnitStats` in the source). -/
structure UnitStats where
  key : String
  name : String
  elixir : Int
  hp : ℚ
  damage : ℚ
  hitSpeed : ℚ
  speed : ℚ
  range : ℚ
  target : String
  ability : String
deriving DecidableEq

/-- The Go zero value of `UnitStats` (what a map miss yields). -/
def UnitStats.zero : UnitStats :=
  { key := "", name := "", elixir := 0, hp := 0, damage := 0, hitSpeed := 0,
    speed := 0, range := 0, target := "", ability := "" }

/-- Dynamic entity (struct `Entity` in the source). -/
structure Entity where
  id : String
  key : String
  ownerID : String
  team : Int
  x : ℚ
  y : ℚ
  hp : ℚ
  maxHP : ℚ
  stats : UnitStats
  lastAttack : ℚ
  targetID : String
  stunnedUntil : ℚ
deriving DecidableEq

/-- Per-actor economy state (struct `PlayerState`). -/
structure PlayerState where
  elixir : ℚ
  hand : List String
  next : String
  deck : List String
deriving DecidableEq

/-- Connected actor (struct `Player` in player.go); only the fields the
engine logic reads are modelled (the websocket connection and send channel
are network plumbing). -/
structure Player where
  id : String
  userID : String
  team : Int
deriving DecidableEq

/-- The game instance (struct `GameInstance`).  `players` is the membership
set (ids), `hasOnGameOver` models `OnGameOver != nil`, and `callbackLog`
records each dispatched `OnGameOver(winner, playersCopy)` call. -/
structure GameInstance where
  entities : List Entity
  unitData : List (String × UnitStats)
  playerStates : List (String × PlayerState)
  gameTime : ℚ
  players : List String
  nextTeamID : Int
  gameOver : Bool
  winnerTeam : Int
  isOvertime : Bool
  isTiebreaker : Bool
  resultSent : Bool
  hasOnGameOver : Bool
  callbackLog : List (Int × List String)
deriving DecidableEq

/-- Go map read `m[k]` returning `ok`, over the association-list model of a
string-keyed map. -/
def mapLookup {α : Type} (k : String) : List (String × α) → Option α
  | [] => none
  | kv :: rest => if kv.1 = k then some kv.2 else mapLookup k rest

/-- Go map read `m[k]` without `ok`: zero value of `UnitStats` on a miss. -/
def lookupUnitD (ud : List (String × UnitStats)) (key : String) : UnitStats :=
  (mapLookup key ud).getD UnitStats.zero

/-- In-place mutation through the pointer held in a Go map entry (the map's
key set is unchanged). -/
def mapSet {α : Type} (k : String) (v : α) (l : List (String × α)) :
    List (String × α) :=
  l.map fun kv => if kv.1 = k then (k, v) else kv

/-- Go map write `m[k] = v` (replace the entry or add a fresh one). -/
def mapInsert {α : Type} (k : String) (v : α) (l : List (String × α)) :
    List (String × α) :=
  if (mapLookup k l).isSome then mapSet k v l else l ++ [(k, v)]

/-- `NewGame` (engine.go lines 53-67). -/
def NewGame : GameInstance :=
  { entities := [], unitData := [], playerStates := [], gameTime := 0,
    players := [], nextTeamID := 0, gameOver := false, winnerTeam := -1,
    isOvertime := false, isTiebreaker := false, resultSent := false,
    hasOnGameOver := false, callbackLog := [] }

/-- The entity literal built in `spawnEntityInternal`; the id is drawn from
the wall clock and RNG in the source and is a parameter here.  The Go
`Entity` zero value fills `TargetID` and `StunnedUntil`. -/
def newEntity (eid key ownerID : String) (team : Int) (x y : ℚ)
    (stats : UnitStats) : Entity :=
  { id := eid, key := key, ownerID := ownerID, team := team, x := x, y := y,
    hp := stats.hp, maxHP := stats.hp, stats := stats, lastAttack := 0,
    targetID := "", stunnedUntil := 0 }

/-- `spawnEntityInternal` (engine.go lines 379-387). -/
def spawnEntityInternal (eid key ownerID : String) (team : Int) (x y : ℚ)
    (g : GameInstance) : GameInstance :=
  { g with entities :=
      g.entities ++ [newEntity eid key ownerID team x y (lookupUnitD g.unitData key)] }

/-- `SpawnEntity` (public wrapper, engine.go lines 389-391). -/
def SpawnEntity (eid key ownerID : String) (team : Int) (x y : ℚ)
    (g : GameInstance) : GameInstance :=
  spawnEntityInternal eid key ownerID team x y g

/-- `InitTowersInternal` (engine.go lines 95-102); `ids` supplies the six
generated entity ids in spawn order. -/
def InitTowersInternal (ids : Nat → String) (g : GameInstance) : GameInstance :=
  let g1 := spawnEntityInternal (ids 0) "king_tower" "server" 0 9 29 g
  let g2 := spawnEntityInternal (ids 1) "princess_tower" "server" 0 3.5 26 g1
  let g3 := spawnEntityInternal (ids 2) "princess_tower" "server" 0 14.5 26 g2
  let g4 := spawnEntityInternal (ids 3) "king_tower" "server" 1 9 3 g3
  let g5 := spawnEntityInternal (ids 4) "princess_tower" "server" 1 3.5 6 g4
  spawnEntityInternal (ids 5) "princess_tower" "server" 1 14.5 6 g5

/-- The eight-key deck literal of `Reset`/`InitPlayer`. -/
def baseDeck : List String :=
  ["morphilina", "dangerlyoha", "yuuechka", "morphe", "classic_morphe",
   "classic_yuu", "sasavot", "murzik"]

/-- `&PlayerState{5.0, deck[:4], deck[4], deck[5:]}` built from an
already-shuffled deck (the shuffle itself is the caller's RNG parameter).
`deck[4]` is total in Go only for decks of length at least 5; `getD`
matches it on the decks actually used (permutations of the 8-key base). -/
def freshPlayerState (deck : List String) : PlayerState :=
  { elixir := 5, hand := deck.take 4, next := deck.getD 4 "", deck := deck.drop 5 }

/-- `InitPlayer` (engine.go lines 111-115); `shuffled` is the result of
`rand.Shuffle` on `baseDeck`. -/
def InitPlayer (shuffled : List String) (playerID : String) (g : GameInstance) :
    GameInstance :=
  { g with playerStates := mapInsert playerID (freshPlayerState shuffled) g.playerStates }

/-- `Reset` (engine.go lines 70-92); `shuffle` gives each player's freshly
shuffled deck, `ids` the generated ids of the six respawned towers. -/
def Reset (shuffle : String → List String) (ids : Nat → String)
    (g : GameInstance) : GameInstance :=
  let g1 := { g with
    entities := ([] : List Entity), gameTime := 0, gameOver := false,
    winnerTeam := -1, isOvertime := false, isTiebreaker := false,
    resultSent := false,
    playerStates := g.playerStates.map fun kv => (kv.1, freshPlayerState (shuffle kv.1)) }
  InitTowersInternal ids g1

/-- The hardcoded king-tower stats written in `LoadUnits`. -/
def kingTowerStats : UnitStats :=
  { key := "king_tower", name := "", elixir := 0, hp := 4000, damage := 100,
    hitSpeed := 1, speed := 0, range := 7, target := "ground", ability := "" }

/-- The hardcoded princess-tower stats written in `LoadUnits`. -/
def princessTowerStats : UnitStats :=
  { key := "princess_tower", name := "", elixir := 0, hp := 2500, damage := 80,
    hitSpeed := 0.8, speed := 0, range := 7.5, target := "ground", ability := "" }

/-- `LoadUnits` (engine.go lines 117-134).  `readResult` is the parsed
content of the unit-definitions file, `none` when `os.ReadFile` fails; in
that case the function returns the error *before* touching `UnitData`, so
the table (and in particular the two tower entries, written only after a
successful read) is left exactly as it was.  The returned `Bool` is
`err == nil`. -/
def LoadUnits (readResult : Option (List (String × UnitStats)))
    (g : GameInstance) : GameInstance × Bool :=
  match readResult with
  | none => (g, false)
  | some units =>
      let ud := units.map fun kv => (kv.1, { kv.2 with key := kv.1 })
      let ud1 := mapInsert "king_tower" kingTowerStats ud
      let ud2 := mapInsert "princess_tower" princessTowerStats ud1
      ({ g with unitData := ud2 }, true)

/-- The startup sequence of `src/cmd/server/main.go` lines 52-59: a failed
`LoadUnits` only logs a warning ("Towers might have 0 HP.") and the server
proceeds to `InitTowers` with whatever table resulted. -/
def serverStartTowers (readResult : Option (List (String × UnitStats)))
    (ids : Nat → String) (g : GameInstance) : GameInstance :=
  InitTowersInternal ids (LoadUnits readResult g).1

/-- `finishGame` (engine.go lines 442-457): guarded by the game-over and
result-sent flags; when `OnGameOver` is set, the dispatch (with the winner
and a copy of the membership set) is recorded on `callbackLog`. -/
def finishGame (winningTeam : Int) (g : GameInstance) : GameInstance :=
  if g.gameOver || g.resultSent then g
  else if g.hasOnGameOver then
    { g with gameOver := true, winnerTeam := winningTeam, resultSent := true,
             callbackLog := g.callbackLog ++ [(winningTeam, g.players)] }
  else { g with gameOver := true, winnerTeam := winningTeam, resultSent := true }

/-- Phase-flag transitions (engine.go lines 179-187), applied after
`GameTime += dt`. -/
def phaseFlags (g : GameInstance) : GameInstance :=
  if ¬g.isOvertime ∧ ¬g.isTiebreaker then
    if g.gameTime ≥ DurationNormal then { g with isOvertime := true } else g
  else if g.isOvertime ∧ ¬g.isTiebreaker then
    if g.gameTime ≥ DurationNormal + DurationOvertime then { g with isTiebreaker := true }
    else g
  else g

/-- The per-entity HP mutation of the tiebreaker drain loop
(engine.go lines 190-198). -/
def drainEnt (dt : ℚ) (e : Entity) : Entity :=
  if e.key = "king_tower" ∨ e.key = "princess_tower" then
    if e.hp - 50 * dt ≤ 0 then { e with hp := 0 } else { e with hp := e.hp - 50 * dt }
  else e

/-- The `finishGame` calls issued by the drain loop, in entity order.
`finishGame` reads none of the entity fields being drained, so the loop
splits soundly into the entity map `drainEnt` and this flag fold. -/
def drainGo (dt : ℚ) (g : GameInstance) : List Entity → GameInstance
  | [] => g
  | e :: rest =>
      if e.key = "king_tower" ∨ e.key = "princess_tower" then
        if e.hp - 50 * dt ≤ 0 then drainGo dt (finishGame ((e.team + 1) % 2) g) rest
        else drainGo dt g rest
      else drainGo dt g rest

/-- The whole `if g.IsTiebreaker` branch (engine.go lines 189-201). -/
def drainStep (dt : ℚ) (g : GameInstance) : GameInstance :=
  { drainGo dt g g.entities with entities := g.entities.map (drainEnt dt) }

/-- Elixir regeneration for one actor (engine.go lines 207-214). -/
def regenPlayer (rate dt : ℚ) (p : PlayerState) : PlayerState :=
  if p.elixir < 10 then
    if p.elixir + rate * dt > 10 then { p with elixir := 10 }
    else { p with elixir := p.elixir + rate * dt }
  else p

/-- Regeneration over all actors (engine.go lines 203-214); the rate doubles
once `GameTime > 120`. -/
def regenStep (dt : ℚ) (g : GameInstance) : GameInstance :=
  let rate : ℚ := if g.gameTime > 120 then 1 / 2.8 * 2 else 1 / 2.8
  { g with playerStates := g.playerStates.map fun kv => (kv.1, regenPlayer rate dt kv.2) }

/-- Alive princess towers of team 0, as counted by the filter loop
(engine.go lines 223-232). -/
def towersTeam0 (l : List Entity) : Nat :=
  (l.filter fun e => e.hp > 0 ∧ e.key = "princess_tower" ∧ e.team = 0).length

/-- Alive princess towers of every other team (the `else` branch of the
team test in the filter loop). -/
def towersTeam1 (l : List Entity) : Nat :=
  (l.filter fun e => e.hp > 0 ∧ e.key = "princess_tower" ∧ ¬e.team = 0).length

/-- The `finishGame` calls issued by the entity-filter loop
(engine.go lines 223-240), in entity order. -/
def filterFinish (suddenDeath : Bool) (g : GameInstance) : List Entity → GameInstance
  | [] => g
  | e :: rest =>
      if e.hp > 0 then filterFinish suddenDeath g rest
      else if e.key = "king_tower" then
        filterFinish suddenDeath (finishGame ((e.team + 1) % 2) g) rest
      else if suddenDeath ∧ e.key = "princess_tower" then
        filterFinish suddenDeath (finishGame ((e.team + 1) % 2) g) rest
      else filterFinish suddenDeath g rest

/-- The filter step (engine.go lines 216-241): keep the HP>0 entities and
run the death-triggered finish checks. -/
def filterStep (g : GameInstance) : GameInstance :=
  { filterFinish (g.isOvertime || g.isTiebreaker) g g.entities with
    entities := g.entities.filter fun e => e.hp > 0 }

/-- Squared Euclidean distance; the source compares `math.Hypot` values only
against non-negative bounds, which this squares exactly. -/
def distSq (e1 e2 : Entity) : ℚ :=
  (e2.x - e1.x) ^ 2 + (e2.y - e1.y) ^ 2

/-- The scan of `FindTarget` (engine.go lines 393-412) carrying the index,
the squared running minimum (initially `1000.0` squared) and the best
index.  `dist < bound` on `math.Hypot` values is `distSq < bound^2` guarded
by `0 < bound`. -/
def findTargetGo (e : Entity) (sight : ℚ) :
    List Entity → Nat → ℚ → Option Nat → Option Nat
  | [], _, _, best => best
  | o :: rest, i, minSq, best =>
      if o.team = e.team ∨ o.hp ≤ 0 then findTargetGo e sight rest (i + 1) minSq best
      else if (0 < sight ∧ distSq e o < sight ^ 2) ∧ distSq e o < minSq then
        findTargetGo e sight rest (i + 1) (distSq e o) (some i)
      else findTargetGo e sight rest (i + 1) minSq best

/-- `FindTarget` (engine.go lines 393-412), returning the index of the
chosen pointer in the entity list. -/
def FindTarget (l : List Entity) (e : Entity) : Option Nat :=
  let sight : ℚ :=
    if e.key = "princess_tower" ∨ e.key = "king_tower" then e.stats.range else 6.5
  findTargetGo e sight l 0 (1000 ^ 2) none

/-- `MoveTowards` (engine.go lines 415-424); `rsqrt` is the square root used
for normalisation (the real one in the source), the `dist > 0.1` guard is
taken exactly on squares. -/
def MoveTowards (rsqrt : ℚ → ℚ) (e : Entity) (tx ty dt : ℚ) : Entity :=
  let dx := tx - e.x
  let dy := ty - e.y
  if dx ^ 2 + dy ^ 2 > 0.1 ^ 2 then
    let dist := rsqrt (dx ^ 2 + dy ^ 2)
    let mv := e.stats.speed * dt
    { e with x := e.x + dx / dist * mv, y := e.y + dy / dist * mv }
  else e

/-- `MoveDownLane` (engine.go lines 425-440). -/
def MoveDownLane (rsqrt : ℚ → ℚ) (e : Entity) (dt : ℚ) : Entity :=
  let targetX := if e.x < 9 then LaneLeftX else LaneRightX
  let towerY : ℚ := if e.team = 1 then 29 else 3
  let onMySide := (e.team = 0 ∧ e.y > BridgeY) ∨ (e.team = 1 ∧ e.y < BridgeY)
  if onMySide ∧ |e.y - BridgeY| > 1 then MoveTowards rsqrt e targetX BridgeY dt
  else MoveTowards rsqrt e targetX towerY dt

/-- One iteration of the combat loop (engine.go lines 247-288) acting on the
entity at index `i`; entities are Go pointers, so reads and writes go
through the current list. -/
def combatOne (rsqrt : ℚ → ℚ) (now dt : ℚ) (t0 t1 : Nat) (l : List Entity)
    (i : Nat) : List Entity :=
  match l.get? i with
  | none => l
  | some e =>
      if e.stunnedUntil > now then l
      else
        let isTower := e.key = "king_tower" ∨ e.key = "princess_tower"
        if e.key = "king_tower" ∧ e.hp ≥ e.maxHP ∧
            (if e.team = 1 then t1 else t0) ≥ 2 then l
        else if e.stats.speed = 0 ∧ ¬isTower then l
        else
          match FindTarget l e with
          | some ti =>
              match l.get? ti with
              | none => l
              | some tgt =>
                  if 0 ≤ e.stats.range + 0.5 ∧ distSq e tgt ≤ (e.stats.range + 0.5) ^ 2 then
                    if now - e.lastAttack ≥ e.stats.hitSpeed then
                      (l.set ti { tgt with hp := tgt.hp - e.stats.damage }).set i
                        { e with lastAttack := now }
                    else l
                  else if e.stats.speed > 0 then
                    l.set i (MoveTowards rsqrt e tgt.x tgt.y dt)
                  else l
          | none =>
              if e.stats.speed > 0 then l.set i (MoveDownLane rsqrt e dt) else l

/-- The combat loop over all entities (engine.go lines 246-288). -/
def combatStep (rsqrt : ℚ → ℚ) (now dt : ℚ) (t0 t1 : Nat)
    (l : List Entity) : List Entity :=
  (List.range l.length).foldl (fun acc i => combatOne rsqrt now dt t0 t1 acc i) l

/-- `Update` (engine.go lines 170-289).  `now` is the wall clock read at
line 246, `rsqrt` the square root used by movement. -/
def Update (rsqrt : ℚ → ℚ) (now dt : ℚ) (g0 : GameInstance) : GameInstance :=
  if g0.gameOver then g0
  else
    let g1 := phaseFlags { g0 with gameTime := g0.gameTime + dt }
    if g1.isTiebreaker then drainStep dt g1
    else
      let g2 := regenStep dt g1
      let g3 := filterStep g2
      if g3.gameOver then g3
      else
        { g3 with entities :=
            (combatStep rsqrt now dt (towersTeam0 g2.entities) (towersTeam1 g2.entities)
              g3.entities) }

/-- The card-search loop of `SpawnUnit` (engine.go lines 356-362). -/
def findCardIdx (key : String) : List String → Option Nat
  | [] => none
  | c :: rest => if c = key then some 0 else (findCardIdx key rest).map (· + 1)

/-- `SpawnUnit` (engine.go lines 332-375); `eid` is the generated id of the
entity created on success. -/
def SpawnUnit (eid : String) (player : Player) (key : String) (x y : ℚ)
    (g : GameInstance) : GameInstance :=
  if (player.team = 0 ∧ y < BridgeY) ∨ (player.team = 1 ∧ y > BridgeY) then g
  else
    match mapLookup key g.unitData with
    | none => g
    | some stats =>
        match mapLookup player.id g.playerStates with
        | none => g
        | some pState =>
            let cost : ℚ := (stats.elixir : ℚ)
            if pState.elixir < cost then g
            else
              match findCardIdx key pState.hand with
              | none => g
              | some cardIdx =>
                  let newHand := pState.hand.set cardIdx pState.next
                  let pState' :=
                    match pState.deck with
                    | [] => { pState with elixir := pState.elixir - cost, hand := newHand }
                    | d :: rest =>
                        { elixir := pState.elixir - cost, hand := newHand,
                          next := d, deck := rest ++ [key] }
                  spawnEntityInternal eid key player.id player.team x y
                    { g with playerStates := mapSet player.id pState' g.playerStates }

/-! ## Concrete fixtures used by witnesses and counterexamples -/

/-- A spawnable unit with the cost the spec example uses. -/
def statsM : UnitStats :=
  { key := "morphilina", name := "", elixir := 3, hp := 100, damage := 10,
    hitSpeed := 1, speed := 1, range := 1, target := "ground", ability := "" }

def statsS : UnitStats :=
  { key := "sasavot", name := "", elixir := 2, hp := 50, damage := 5,
    hitSpeed := 1, speed := 1, range := 1, target := "ground", ability := "" }

def unitsA : List (String × UnitStats) := [("morphilina", statsM), ("sasavot", statsS)]

def psA : PlayerState :=
  { elixir := 10, hand := ["morphilina", "dangerlyoha", "yuuechka", "morphe"],
    next := "classic_morphe", deck := ["classic_yuu", "murzik"] }

def psE : PlayerState := { psA with deck := [] }

def psPoor : PlayerState := { psA with elixir := 1 }

def plA : Player := { id := "p1", userID := "u1", team := 0 }

def plB : Player := { id := "nobody", userID := "", team := 0 }

def gA : GameInstance :=
  { NewGame with unitData := unitsA, playerStates := [("p1", psA)] }

def gE : GameInstance :=
  { NewGame with unitData := unitsA, playerStates := [("p1", psE)] }

def gPoor : GameInstance :=
  { NewGame with unitData := unitsA, playerStates := [("p1", psPoor)] }

def gCB : GameInstance :=
  { NewGame with hasOnGameOver := true, players := ["p1", "p2"] }

/-- A team-0 king tower with partial damage. -/
def kingE : Entity :=
  { id := "k0", key := "king_tower", ownerID := "server", team := 0, x := 9,
    y := 29, hp := 1000, maxHP := 4000, stats := kingTowerStats, lastAttack := 0,
    targetID := "", stunnedUntil := 0 }

/-- A team-1 princess tower with low HP. -/
def prinE : Entity :=
  { id := "pt1", key := "princess_tower", ownerID := "server", team := 1, x := 3.5,
    y := 6, hp := 40, maxHP := 2500, stats := princessTowerStats, lastAttack := 0,
    targetID := "", stunnedUntil := 0 }

/-- A game deep in the tiebreaker phase. -/
def gTB : GameInstance :=
  { NewGame with
    entities := [kingE, prinE], gameTime := 250,
    isOvertime := true, isTiebreaker := true, hasOnGameOver := true,
    players := ["p1", "p2"] }

/-- A dead team-1 king. -/
def deadKing : Entity := { kingE with id := "k1", team := 1, y := 3, hp := 0 }

/-- A normal-phase game whose only entity is a dead team-1 king. -/
def gN : GameInstance :=
  { NewGame with
    entities := [deadKing], gameTime := 10, hasOnGameOver := true,
    playerStates := [("p1", psA)], players := ["p1"] }

/-- A dead team-1 princess tower. -/
def prinDead : Entity := { prinE with hp := 0 }

/-- A healthy team-1 king. -/
def kingA1 : Entity := { kingE with id := "k1b", team := 1, y := 3 }

/-- A normal-phase game with a dead team-1 princess and two live kings. -/
def gP : GameInstance :=
  { NewGame with
    entities := [prinDead, kingE, kingA1], gameTime := 10,
    playerStates := [("p1", psA)], players := ["p1"] }

/-! ## Helper lemmas -/

theorem mapLookup_mem {α : Type} {k : String} {v : α} :
    ∀ {l : List (String × α)}, mapLookup k l = some v → (k, v) ∈ l := by
  intro l
  induction l with
  | nil => intro h; simp [mapLookup] at h
  | cons kv rest ih =>
      intro h
      unfold mapLookup at h
      by_cases hk : kv.1 = k
      · rw [if_pos hk] at h
        have hkv : kv = (k, v) := Prod.ext hk (Option.some.inj h)
        rw [← hkv]
        exact List.mem_cons_self kv rest
      · rw [if_neg hk] at h
        exact List.mem_cons_of_mem _ (ih h)

theorem mapLookup_mapSet_isSome {α : Type} {k : String} (v : α) :
    ∀ {l : List (String × α)}, (mapLookup k l).isSome →
      mapLookup k (mapSet k v l) = some v := by
  intro l
  induction l with
  | nil => intro h; simp [mapLookup] at h
  | cons kv rest ih =>
      intro h
      by_cases hk : kv.1 = k
      · simp [mapSet, mapLookup, hk]
      · unfold mapLookup at h
        rw [if_neg hk] at h
        simpa [mapSet, mapLookup, hk] using ih h

theorem mem_mapSet {α : Type} {kv : String × α} {k : String} {v : α}
    {l : List (String × α)} (h : kv ∈ mapSet k v l) : kv = (k, v) ∨ kv ∈ l := by
  rcases List.mem_map.mp h with ⟨kv0, hkv0, heq⟩
  by_cases hk : kv0.1 = k
  · rw [if_pos hk] at heq
    exact Or.inl heq.symm
  · rw [if_neg hk] at heq
    exact Or.inr (heq ▸ hkv0)

theorem mapLookup_append_none {α : Type} {k : String} {l2 : List (String × α)} :
    ∀ {l1 : List (String × α)}, mapLookup k l1 = none →
      mapLookup k (l1 ++ l2) = mapLookup k l2 := by
  intro l1
  induction l1 with
  | nil => intro _; rfl
  | cons kv rest ih =>
      intro h
      unfold mapLookup at h
      by_cases hk : kv.1 = k
      · rw [if_pos hk] at h; cases h
      · rw [if_neg hk] at h
        simpa [mapLookup, hk] using ih h

theorem mapLookup_mapInsert_self {α : Type} (k : String) (v : α)
    (l : List (String × α)) : mapLookup k (mapInsert k v l) = some v := by
  unfold mapInsert
  by_cases h : (mapLookup k l).isSome
  · rw [if_pos h]
    exact mapLookup_mapSet_isSome v h
  · rw [if_neg h]
    have hn : mapLookup k l = none := by
      cases hx : mapLookup k l
      · rfl
      · rw [hx] at h; simp at h
    rw [mapLookup_append_none hn]
    simp [mapLookup]

theorem mapLookup_mapSet_ne {α : Type} {k k2 : String} (hne : k ≠ k2) (v : α) :
    ∀ (l : List (String × α)), mapLookup k (mapSet k2 v l) = mapLookup k l := by
  intro l
  induction l with
  | nil => rfl
  | cons kv rest ih =>
      have hmap : mapSet k2 v (kv :: rest) =
          (if kv.1 = k2 then (k2, v) else kv) :: mapSet k2 v rest := rfl
      rw [hmap]
      by_cases hk : kv.1 = k2
      · rw [if_pos hk]
        unfold mapLookup
        rw [if_neg (show ¬((k2, v).1 = k) from fun h => hne h.symm),
            if_neg (show ¬(kv.1 = k) from by rw [hk]; exact fun h => hne h.symm)]
        exact ih
      · rw [if_neg hk]
        unfold mapLookup
        by_cases hk2 : kv.1 = k
        · rw [if_pos hk2, if_pos hk2]
        · rw [if_neg hk2, if_neg hk2]
          exact ih

theorem mapLookup_append_single_ne {α : Type} {k k2 : String} (hne : k ≠ k2)
    (v : α) : ∀ (l : List (String × α)),
    mapLookup k (l ++ [(k2, v)]) = mapLookup k l := by
  intro l
  induction l with
  | nil =>
      show mapLookup k [(k2, v)] = none
      unfold mapLookup
      rw [if_neg (show ¬((k2, v).1 = k) from fun h => hne h.symm)]
      rfl
  | cons kv rest ih =>
      show mapLookup k (kv :: (rest ++ [(k2, v)])) = mapLookup k (kv :: rest)
      unfold mapLookup
      by_cases hk : kv.1 = k
      · rw [if_pos hk, if_pos hk]
      · rw [if_neg hk, if_neg hk]
        exact ih

theorem mapLookup_mapInsert_ne {α : Type} {k k2 : String} (hne : k ≠ k2) (v : α)
    (l : List (String × α)) : mapLookup k (mapInsert k2 v l) = mapLookup k l := by
  unfold mapInsert
  by_cases h : (mapLookup k2 l).isSome
  · rw [if_pos h]
    exact mapLookup_mapSet_ne hne v l
  · rw [if_neg h]
    exact mapLookup_append_single_ne hne v l

theorem findCardIdx_eq_none {key : String} :
    ∀ {l : List String}, key ∉ l → findCardIdx key l = none := by
  intro l
  induction l with
  | nil => intro _; rfl
  | cons c rest ih =>
      intro h
      have hc : ¬(c = key) := fun hc => h (hc ▸ List.mem_cons_self c rest)
      have hrest : key ∉ rest := fun hr => h (List.mem_cons_of_mem _ hr)
      simp [findCardIdx, hc, ih hrest]

theorem findCardIdx_get :
    ∀ {l : List String} {key : String} {i : Nat}, findCardIdx key l = some i →
      i < l.length ∧ l.get? i = some key := by
  intro l
  induction l with
  | nil => intro key i h; simp [findCardIdx] at h
  | cons c rest ih =>
      intro key i h
      unfold findCardIdx at h
      by_cases hc : c = key
      · rw [if_pos hc] at h
        cases h
        exact ⟨Nat.succ_pos _, by simp [hc]⟩
      · rw [if_neg hc] at h
        cases hj : findCardIdx key rest with
        | none => rw [hj] at h; cases h
        | some j =>
            rw [hj] at h
            cases h
            rcases ih hj with ⟨hlt, hget⟩
            exact ⟨Nat.succ_lt_succ hlt, by simpa using hget⟩

theorem finishGame_of_gameOver {g : GameInstance} (h : g.gameOver = true)
    (w : Int) : finishGame w g = g := by
  unfold finishGame
  rw [if_pos]
  rw [h]
  rfl

theorem finishGame_fresh {g : GameInstance} (hgo : g.gameOver = false)
    (hrs : g.resultSent = false) (w : Int) :
    finishGame w g =
      (if g.hasOnGameOver then
        { g with gameOver := true, winnerTeam := w, resultSent := true,
                 callbackLog := g.callbackLog ++ [(w, g.players)] }
      else { g with gameOver := true, winnerTeam := w, resultSent := true }) := by
  unfold finishGame
  rw [hgo, hrs]
  rfl

theorem finishGame_entities (w : Int) (g : GameInstance) :
    (finishGame w g).entities = g.entities := by
  unfold finishGame
  split
  · rfl
  · split <;> rfl

theorem finishGame_playerStates (w : Int) (g : GameInstance) :
    (finishGame w g).playerStates = g.playerStates := by
  unfold finishGame
  split
  · rfl
  · split <;> rfl

theorem finishGame_gameTime (w : Int) (g : GameInstance) :
    (finishGame w g).gameTime = g.gameTime := by
  unfold finishGame
  split
  · rfl
  · split <;> rfl

theorem finishGame_isOvertime (w : Int) (g : GameInstance) :
    (finishGame w g).isOvertime = g.isOvertime := by
  unfold finishGame
  split
  · rfl
  · split <;> rfl

theorem finishGame_isTiebreaker (w : Int) (g : GameInstance) :
    (finishGame w g).isTiebreaker = g.isTiebreaker := by
  unfold finishGame
  split
  · rfl
  · split <;> rfl

theorem finishGame_players (w : Int) (g : GameInstance) :
    (finishGame w g).players = g.players := by
  unfold finishGame
  split
  · rfl
  · split <;> rfl

theorem finishGame_unitData (w : Int) (g : GameInstance) :
    (finishGame w g).unitData = g.unitData := by
  unfold finishGame
  split
  · rfl
  · split <;> rfl

theorem phaseFlags_eq_cases (g : GameInstance) :
    phaseFlags g = g ∨ phaseFlags g = { g with isOvertime := true } ∨
      phaseFlags g = { g with isTiebreaker := true } := by
  unfold phaseFlags
  split
  · split
    · exact Or.inr (Or.inl rfl)
    · exact Or.inl rfl
  · split
    · split
      · exact Or.inr (Or.inr rfl)
      · exact Or.inl rfl
    · exact Or.inl rfl

theorem phaseFlags_entities (g : GameInstance) :
    (phaseFlags g).entities = g.entities := by
  rcases phaseFlags_eq_cases g with h | h | h <;> rw [h]

theorem phaseFlags_playerStates (g : GameInstance) :
    (phaseFlags g).playerStates = g.playerStates := by
  rcases phaseFlags_eq_cases g with h | h | h <;> rw [h]

theorem phaseFlags_gameOver (g : GameInstance) :
    (phaseFlags g).gameOver = g.gameOver := by
  rcases phaseFlags_eq_cases g with h | h | h <;> rw [h]

theorem phaseFlags_resultSent (g : GameInstance) :
    (phaseFlags g).resultSent = g.resultSent := by
  rcases phaseFlags_eq_cases g with h | h | h <;> rw [h]

theorem phaseFlags_gameTime (g : GameInstance) :
    (phaseFlags g).gameTime = g.gameTime := by
  rcases phaseFlags_eq_cases g with h | h | h <;> rw [h]

theorem phaseFlags_winnerTeam (g : GameInstance) :
    (phaseFlags g).winnerTeam = g.winnerTeam := by
  rcases phaseFlags_eq_cases g with h | h | h <;> rw [h]

theorem phaseFlags_callbackLog (g : GameInstance) :
    (phaseFlags g).callbackLog = g.callbackLog := by
  rcases phaseFlags_eq_cases g with h | h | h <;> rw [h]

theorem phaseFlags_of_tiebreaker {g : GameInstance} (h : g.isTiebreaker = true) :
    phaseFlags g = g := by
  simp [phaseFlags, h]

theorem phaseFlags_tiebreaker_of_enter {g : GameInstance}
    (hot : g.isOvertime = true) (htb : g.isTiebreaker = false)
    (ht : DurationNormal + DurationOvertime ≤ g.gameTime) :
    phaseFlags g = { g with isTiebreaker := true } := by
  simp [phaseFlags, hot, htb, ge_iff_le, ht]

theorem phaseFlags_normal {g : GameInstance}
    (hot : g.isOvertime = false) (htb : g.isTiebreaker = false)
    (ht : g.gameTime < DurationNormal) : phaseFlags g = g := by
  simp only [phaseFlags, hot, htb]
  norm_num
  intro h
  exact absurd h (not_le.mpr ht)

theorem regenStep_entities (dt : ℚ) (g : GameInstance) :
    (regenStep dt g).entities = g.entities := rfl

theorem regenStep_gameOver (dt : ℚ) (g : GameInstance) :
    (regenStep dt g).gameOver = g.gameOver := rfl

theorem regenStep_resultSent (dt : ℚ) (g : GameInstance) :
    (regenStep dt g).resultSent = g.resultSent := rfl

theorem regenStep_winnerTeam (dt : ℚ) (g : GameInstance) :
    (regenStep dt g).winnerTeam = g.winnerTeam := rfl

theorem regenStep_callbackLog (dt : ℚ) (g : GameInstance) :
    (regenStep dt g).callbackLog = g.callbackLog := rfl

theorem regenStep_isOvertime (dt : ℚ) (g : GameInstance) :
    (regenStep dt g).isOvertime = g.isOvertime := rfl

theorem regenStep_isTiebreaker (dt : ℚ) (g : GameInstance) :
    (regenStep dt g).isTiebreaker = g.isTiebreaker := rfl

theorem regenStep_playerStates (dt : ℚ) (g : GameInstance) :
    (regenStep dt g).playerStates =
      g.playerStates.map fun kv =>
        (kv.1, regenPlayer (if g.gameTime > 120 then 1 / 2.8 * 2 else 1 / 2.8) dt kv.2) := rfl

theorem drainGo_proj {α : Type} (f : GameInstance → α)
    (hf : ∀ (w : Int) (g : GameInstance), f (finishGame w g) = f g) (dt : ℚ) :
    ∀ (l : List Entity) (g : GameInstance), f (drainGo dt g l) = f g := by
  intro l
  induction l with
  | nil => intro g; rfl
  | cons e rest ih =>
      intro g
      unfold drainGo
      by_cases hb : e.key = "king_tower" ∨ e.key = "princess_tower"
      · by_cases hh : e.hp - 50 * dt ≤ 0
        · rw [if_pos hb, if_pos hh, ih, hf]
        · rw [if_pos hb, if_neg hh, ih]
      · rw [if_neg hb, ih]

theorem drainGo_of_gameOver (dt : ℚ) :
    ∀ (l : List Entity) (g : GameInstance), g.gameOver = true →
      drainGo dt g l = g := by
  intro l
  induction l with
  | nil => intro g _; rfl
  | cons e rest ih =>
      intro g h
      unfold drainGo
      by_cases hb : e.key = "king_tower" ∨ e.key = "princess_tower"
      · by_cases hh : e.hp - 50 * dt ≤ 0
        · rw [if_pos hb, if_pos hh, finishGame_of_gameOver h, ih g h]
        · rw [if_pos hb, if_neg hh, ih g h]
      · rw [if_neg hb, ih g h]

theorem drainGo_winner (dt : ℚ) (t : Int) :
    ∀ (l : List Entity) (g : GameInstance), g.gameOver = false →
      g.resultSent = false →
      (∀ e ∈ l, (e.key = "king_tower" ∨ e.key = "princess_tower") →
        e.hp - 50 * dt ≤ 0 → e.team = t) →
      (∃ e ∈ l, (e.key = "king_tower" ∨ e.key = "princess_tower") ∧
        e.hp - 50 * dt ≤ 0) →
      (drainGo dt g l).gameOver = true ∧
      (drainGo dt g l).winnerTeam = (t + 1) % 2 := by
  intro l
  induction l with
  | nil =>
      intro g _ _ _ hex
      rcases hex with ⟨e, he, _⟩
      exact absurd he (List.not_mem_nil e)
  | cons e rest ih =>
      intro g hgo hrs hall hex
      unfold drainGo
      by_cases hb : e.key = "king_tower" ∨ e.key = "princess_tower"
      · by_cases hh : e.hp - 50 * dt ≤ 0
        · rw [if_pos hb, if_pos hh]
          have hte : e.team = t := hall e (List.mem_cons_self e rest) hb hh
          have hfresh := finishGame_fresh hgo hrs ((e.team + 1) % 2)
          have hgo1 : (finishGame ((e.team + 1) % 2) g).gameOver = true := by
            rw [hfresh]
            split <;> rfl
          have hwin : (finishGame ((e.team + 1) % 2) g).winnerTeam = (t + 1) % 2 := by
            rw [hfresh, hte]
            split <;> rfl
          rw [drainGo_of_gameOver dt rest _ hgo1]
          exact ⟨hgo1, hwin⟩
        · rw [if_pos hb, if_neg hh]
          refine ih g hgo hrs
            (fun e2 he2 => hall e2 (List.mem_cons_of_mem _ he2)) ?_
          rcases hex with ⟨e2, he2, hprop⟩
          rcases List.mem_cons.mp he2 with h1 | h2
          · exact absurd (h1 ▸ hprop.2) hh
          · exact ⟨e2, h2, hprop⟩
      · rw [if_neg hb]
        refine ih g hgo hrs
          (fun e2 he2 => hall e2 (List.mem_cons_of_mem _ he2)) ?_
        rcases hex with ⟨e2, he2, hprop⟩
        rcases List.mem_cons.mp he2 with h1 | h2
        · exact absurd (h1 ▸ hprop.1) hb
        · exact ⟨e2, h2, hprop⟩

theorem drainGo_noFinish (dt : ℚ) :
    ∀ (l : List Entity) (g : GameInstance),
      (∀ e ∈ l, (e.key = "king_tower" ∨ e.key = "princess_tower") →
        ¬(e.hp - 50 * dt ≤ 0)) →
      drainGo dt g l = g := by
  intro l
  induction l with
  | nil => intro g _; rfl
  | cons e rest ih =>
      intro g hall
      unfold drainGo
      by_cases hb : e.key = "king_tower" ∨ e.key = "princess_tower"
      · rw [if_pos hb, if_neg (hall e (List.mem_cons_self e rest) hb)]
        exact ih g fun e2 he2 => hall e2 (List.mem_cons_of_mem _ he2)
      · rw [if_neg hb]
        exact ih g fun e2 he2 => hall e2 (List.mem_cons_of_mem _ he2)

theorem filterFinish_proj {α : Type} (f : GameInstance → α)
    (hf : ∀ (w : Int) (g : GameInstance), f (finishGame w g) = f g) (sd : Bool) :
    ∀ (l : List Entity) (g : GameInstance), f (filterFinish sd g l) = f g := by
  intro l
  induction l with
  | nil => intro g; rfl
  | cons e rest ih =>
      intro g
      unfold filterFinish
      by_cases hhp : e.hp > 0
      · rw [if_pos hhp, ih]
      · rw [if_neg hhp]
        by_cases hk : e.key = "king_tower"
        · rw [if_pos hk, ih, hf]
        · rw [if_neg hk]
          by_cases hsd : sd = true ∧ e.key = "princess_tower"
          · rw [if_pos hsd, ih, hf]
          · rw [if_neg hsd, ih]

theorem filterFinish_of_gameOver (sd : Bool) :
    ∀ (l : List Entity) (g : GameInstance), g.gameOver = true →
      filterFinish sd g l = g := by
  intro l
  induction l with
  | nil => intro g _; rfl
  | cons e rest ih =>
      intro g h
      unfold filterFinish
      by_cases hhp : e.hp > 0
      · rw [if_pos hhp, ih g h]
      · rw [if_neg hhp]
        by_cases hk : e.key = "king_tower"
        · rw [if_pos hk, finishGame_of_gameOver h, ih g h]
        · rw [if_neg hk]
          by_cases hsd : sd = true ∧ e.key = "princess_tower"
          · rw [if_pos hsd, finishGame_of_gameOver h, ih g h]
          · rw [if_neg hsd, ih g h]

theorem filterFinish_winner (sd : Bool) (t : Int) :
    ∀ (l : List Entity) (g : GameInstance), g.gameOver = false →
      g.resultSent = false →
      (∀ e ∈ l, ¬(e.hp > 0) →
        (e.key = "king_tower" ∨ (sd = true ∧ e.key = "princess_tower")) →
        e.team = t) →
      (∃ e ∈ l, ¬(e.hp > 0) ∧
        (e.key = "king_tower" ∨ (sd = true ∧ e.key = "princess_tower"))) →
      (filterFinish sd g l).gameOver = true ∧
      (filterFinish sd g l).winnerTeam = (t + 1) % 2 := by
  intro l
  induction l with
  | nil =>
      intro g _ _ _ hex
      rcases hex with ⟨e, he, _⟩
      exact absurd he (List.not_mem_nil e)
  | cons e rest ih =>
      intro g hgo hrs hall hex
      unfold filterFinish
      by_cases hhp : e.hp > 0
      · rw [if_pos hhp]
        refine ih g hgo hrs
          (fun e2 he2 => hall e2 (List.mem_cons_of_mem _ he2)) ?_
        rcases hex with ⟨e2, he2, hprop⟩
        rcases List.mem_cons.mp he2 with h1 | h2
        · exact absurd (h1 ▸ hhp) hprop.1
        · exact ⟨e2, h2, hprop⟩
      · rw [if_neg hhp]
        by_cases hk : e.key = "king_tower"
        · rw [if_pos hk]
          have hte : e.team = t :=
            hall e (List.mem_cons_self e rest) hhp (Or.inl hk)
          have hfresh := finishGame_fresh hgo hrs ((e.team + 1) % 2)
          have hgo1 : (finishGame ((e.team + 1) % 2) g).gameOver = true := by
            rw [hfresh]
            split <;> rfl
          have hwin : (finishGame ((e.team + 1) % 2) g).winnerTeam = (t + 1) % 2 := by
            rw [hfresh, hte]
            split <;> rfl
          rw [filterFinish_of_gameOver sd rest _ hgo1]
          exact ⟨hgo1, hwin⟩
        · rw [if_neg hk]
          by_cases hsd : sd = true ∧ e.key = "princess_tower"
          · rw [if_pos hsd]
            have hte : e.team = t :=
              hall e (List.mem_cons_self e rest) hhp (Or.inr hsd)
            have hfresh := finishGame_fresh hgo hrs ((e.team + 1) % 2)
            have hgo1 : (finishGame ((e.team + 1) % 2) g).gameOver = true := by
              rw [hfresh]
              split <;> rfl
            have hwin : (finishGame ((e.team + 1) % 2) g).winnerTeam = (t + 1) % 2 := by
              rw [hfresh, hte]
              split <;> rfl
            rw [filterFinish_of_gameOver sd rest _ hgo1]
            exact ⟨hgo1, hwin⟩
          · rw [if_neg hsd]
            refine ih g hgo hrs
              (fun e2 he2 => hall e2 (List.mem_cons_of_mem _ he2)) ?_
            rcases hex with ⟨e2, he2, hprop⟩
            rcases List.mem_cons.mp he2 with h1 | h2
            · exfalso
              rcases hprop.2 with hx | hx
              · exact hk (h1 ▸ hx)
              · exact hsd (h1 ▸ hx)
            · exact ⟨e2, h2, hprop⟩

theorem filterFinish_noFinish (sd : Bool) :
    ∀ (l : List Entity) (g : GameInstance),
      (∀ e ∈ l, ¬(e.hp > 0) →
        ¬(e.key = "king_tower" ∨ (sd = true ∧ e.key = "princess_tower"))) →
      filterFinish sd g l = g := by
  intro l
  induction l with
  | nil => intro g _; rfl
  | cons e rest ih =>
      intro g hall
      unfold filterFinish
      by_cases hhp : e.hp > 0
      · rw [if_pos hhp]
        exact ih g fun e2 he2 => hall e2 (List.mem_cons_of_mem _ he2)
      · rw [if_neg hhp]
        have hne := hall e (List.mem_cons_self e rest) hhp
        rw [if_neg (fun hk => hne (Or.inl hk)),
            if_neg (fun hsd => hne (Or.inr hsd))]
        exact ih g fun e2 he2 => hall e2 (List.mem_cons_of_mem _ he2)

theorem mem_set_self {α : Type} :
    ∀ (l : List α) (i : Nat) (a : α), i < l.length → a ∈ l.set i a := by
  intro l
  induction l with
  | nil => intro i a h; exact absurd h (Nat.not_lt_zero i)
  | cons c rest ih =>
      intro i a h
      cases i with
      | zero => exact List.mem_cons_self a rest
      | succ j => exact List.mem_cons_of_mem c (ih j a (Nat.lt_of_succ_lt_succ h))

theorem not_mem_set_of_nodup {α : Type} :
    ∀ (l : List α) (i : Nat) (key a : α), l.Nodup → l.get? i = some key →
      a ≠ key → key ∉ l.set i a := by
  intro l
  induction l with
  | nil => intro i key a _ h _; simp at h
  | cons c rest ih =>
      intro i key a hnd hget hne hmem
      cases i with
      | zero =>
          have hc : c = key := Option.some.inj hget
          rcases List.mem_cons.mp hmem with h1 | h2
          · exact hne h1.symm
          · exact (List.nodup_cons.mp hnd).1 (hc ▸ h2)
      | succ j =>
          rcases List.mem_cons.mp hmem with h1 | h2
          · have hk : key ∈ rest := List.get?_mem hget
            exact (List.nodup_cons.mp hnd).1 (h1 ▸ hk)
          · exact ih j key a (List.nodup_cons.mp hnd).2 hget hne h2

theorem spawnUnit_run_cons (eid : String) (player : Player) (key : String)
    (x y : ℚ) (g : GameInstance) (stats : UnitStats) (ps : PlayerState)
    (i : Nat) (d : String) (rest : List String)
    (hz : ¬((player.team = 0 ∧ y < BridgeY) ∨ (player.team = 1 ∧ y > BridgeY)))
    (hu : mapLookup key g.unitData = some stats)
    (hps : mapLookup player.id g.playerStates = some ps)
    (hel : ¬(ps.elixir < (stats.elixir : ℚ)))
    (hidx : findCardIdx key ps.hand = some i)
    (hdeck : ps.deck = d :: rest) :
    SpawnUnit eid player key x y g =
      spawnEntityInternal eid key player.id player.team x y
        { g with playerStates :=
            (mapSet player.id
              { elixir := ps.elixir - (stats.elixir : ℚ), hand := ps.hand.set i ps.next,
                next := d, deck := rest ++ [key] } g.playerStates) } := by
  unfold SpawnUnit
  rw [if_neg hz]
  split
  next heq => rw [hu] at heq; simp at heq
  next stats1 heq =>
    rw [hu] at heq
    injection heq with h1
    subst h1
    split
    next heq2 => rw [hps] at heq2; simp at heq2
    next ps1 heq2 =>
      rw [hps] at heq2
      injection heq2 with h2
      subst h2
      rw [if_neg hel]
      split
      next heq3 => rw [hidx] at heq3; simp at heq3
      next i1 heq3 =>
        rw [hidx] at heq3
        injection heq3 with h3
        subst h3
        split
        next heq4 => rw [hdeck] at heq4; simp at heq4
        next d1 rest1 heq4 =>
          rw [hdeck] at heq4
          injection heq4 with hd hr
          subst hd
          subst hr
          rfl

theorem spawnUnit_run_nil (eid : String) (player : Player) (key : String)
    (x y : ℚ) (g : GameInstance) (stats : UnitStats) (ps : PlayerState)
    (i : Nat)
    (hz : ¬((player.team = 0 ∧ y < BridgeY) ∨ (player.team = 1 ∧ y > BridgeY)))
    (hu : mapLookup key g.unitData = some stats)
    (hps : mapLookup player.id g.playerStates = some ps)
    (hel : ¬(ps.elixir < (stats.elixir : ℚ)))
    (hidx : findCardIdx key ps.hand = some i)
    (hdeck : ps.deck = []) :
    SpawnUnit eid player key x y g =
      spawnEntityInternal eid key player.id player.team x y
        { g with playerStates :=
            (mapSet player.id
              { ps with elixir := ps.elixir - (stats.elixir : ℚ),
                        hand := ps.hand.set i ps.next } g.playerStates) } := by
  unfold SpawnUnit
  rw [if_neg hz]
  split
  next heq => rw [hu] at heq; simp at heq
  next stats1 heq =>
    rw [hu] at heq
    injection heq with h1
    subst h1
    split
    next heq2 => rw [hps] at heq2; simp at heq2
    next ps1 heq2 =>
      rw [hps] at heq2
      injection heq2 with h2
      subst h2
      rw [if_neg hel]
      split
      next heq3 => rw [hidx] at heq3; simp at heq3
      next i1 heq3 =>
        rw [hidx] at heq3
        injection heq3 with h3
        subst h3
        split
        next heq4 => rfl
        next d1 rest1 heq4 => rw [hdeck] at heq4; simp at heq4

theorem drainGo_isTiebreaker (dt : ℚ) (l : List Entity) (g : GameInstance) :
    (drainGo dt g l).isTiebreaker = g.isTiebreaker :=
  drainGo_proj (fun g => g.isTiebreaker) finishGame_isTiebreaker dt l g

theorem drainGo_gameTime (dt : ℚ) (l : List Entity) (g : GameInstance) :
    (drainGo dt g l).gameTime = g.gameTime :=
  drainGo_proj (fun g => g.gameTime) finishGame_gameTime dt l g

theorem drainGo_playerStates (dt : ℚ) (l : List Entity) (g : GameInstance) :
    (drainGo dt g l).playerStates = g.playerStates :=
  drainGo_proj (fun g => g.playerStates) finishGame_playerStates dt l g

theorem filterFinish_playerStates (sd : Bool) (l : List Entity) (g : GameInstance) :
    (filterFinish sd g l).playerStates = g.playerStates :=
  filterFinish_proj (fun g => g.playerStates) finishGame_playerStates sd l g

theorem update_unfold (rsqrt : ℚ → ℚ) (now dt : ℚ) (g : GameInstance)
    (hgo : g.gameOver = false) :
    Update rsqrt now dt g =
      (if (phaseFlags { g with gameTime := g.gameTime + dt }).isTiebreaker = true
       then drainStep dt (phaseFlags { g with gameTime := g.gameTime + dt })
       else
        (if (filterStep (regenStep dt (phaseFlags { g with gameTime := g.gameTime + dt }))).gameOver = true
         then filterStep (regenStep dt (phaseFlags { g with gameTime := g.gameTime + dt }))
         else
          { filterStep (regenStep dt (phaseFlags { g with gameTime := g.gameTime + dt })) with
            entities :=
              (combatStep rsqrt now dt
                (towersTeam0 (regenStep dt (phaseFlags { g with gameTime := g.gameTime + dt })).entities)
                (towersTeam1 (regenStep dt (phaseFlags { g with gameTime := g.gameTime + dt })).entities)
                (filterStep (regenStep dt (phaseFlags { g with gameTime := g.gameTime + dt }))).entities) })) := by
  unfold Update
  rw [if_neg (by rw [hgo]; exact Bool.false_ne_true)]

theorem update_of_gameOver (rsqrt : ℚ → ℚ) (now dt : ℚ) {g : GameInstance}
    (h : g.gameOver = true) : Update rsqrt now dt g = g := by
  unfold Update
  rw [if_pos h]

theorem regenRate_nonneg (g : GameInstance) :
    (0 : ℚ) ≤ (if g.gameTime > 120 then 1 / 2.8 * 2 else 1 / 2.8) := by
  split <;> norm_num

theorem regenPlayer_bounds (rate dt : ℚ) (p : PlayerState) (hr : 0 ≤ rate)
    (hd : 0 ≤ dt) (h0 : 0 ≤ p.elixir) (h10 : p.elixir ≤ 10) :
    0 ≤ (regenPlayer rate dt p).elixir ∧ (regenPlayer rate dt p).elixir ≤ 10 := by
  unfold regenPlayer
  by_cases h1 : p.elixir < 10
  · rw [if_pos h1]
    by_cases h2 : p.elixir + rate * dt > 10
    · rw [if_pos h2]
      norm_num
    · rw [if_neg h2]
      have hm : 0 ≤ rate * dt := mul_nonneg hr hd
      constructor
      · show (0 : ℚ) ≤ p.elixir + rate * dt
        linarith
      · show p.elixir + rate * dt ≤ 10
        exact not_lt.mp h2
  · rw [if_neg h1]
    exact ⟨h0, h10⟩

theorem spawnUnit_playerStates_cases (eid : String) (player : Player)
    (key : String) (x y : ℚ) (g : GameInstance) :
    (SpawnUnit eid player key x y g).playerStates = g.playerStates ∨
    ∃ stats ps ps', mapLookup key g.unitData = some stats ∧
      mapLookup player.id g.playerStates = some ps ∧
      ¬(ps.elixir < (stats.elixir : ℚ)) ∧
      ps'.elixir = ps.elixir - (stats.elixir : ℚ) ∧
      (SpawnUnit eid player key x y g).playerStates =
        mapSet player.id ps' g.playerStates := by
  unfold SpawnUnit
  split
  · exact Or.inl rfl
  · split
    · exact Or.inl rfl
    · next stats heq =>
        split
        · exact Or.inl rfl
        · next ps heq2 =>
            split
            · left
              dsimp only
              rw [ite_self]
            · next i heq3 =>
                split
                · dsimp only
                  by_cases helx : ps.elixir < ((stats.elixir : Int) : ℚ)
                  · rw [if_pos helx]
                    exact Or.inl rfl
                  · rw [if_neg helx]
                    exact Or.inr ⟨stats, ps, _, heq, heq2, helx, rfl, rfl⟩
                · dsimp only
                  by_cases helx : ps.elixir < ((stats.elixir : Int) : ℚ)
                  · rw [if_pos helx]
                    exact Or.inl rfl
                  · rw [if_neg helx]
                    exact Or.inr ⟨stats, ps, _, heq, heq2, helx, rfl, rfl⟩

theorem length_filter_mono {α : Type} (q r : α → Bool)
    (hqr : ∀ a, q a = true → r a = true) :
    ∀ (l : List α), (l.filter q).length ≤ (l.filter r).length := by
  intro l
  induction l with
  | nil => exact Nat.le_refl 0
  | cons c rest ih =>
      rw [List.filter_cons, List.filter_cons]
      cases hq : q c
      · cases hr : r c
        · simpa using ih
        · simp only [List.length_cons]
          exact Nat.le_succ_of_le ih
      · rw [hqr c hq]
        simpa using Nat.succ_le_succ ih

theorem length_filter_lt_of_strong {α : Type} (q r : α → Bool)
    (hqr : ∀ a, q a = true → r a = true) :
    ∀ (l : List α) (p : α), p ∈ l → q p = false → r p = true →
      (l.filter q).length < (l.filter r).length := by
  intro l
  induction l with
  | nil => intro p h; exact absurd h (List.not_mem_nil p)
  | cons c rest ih =>
      intro p hp hq hr
      rw [List.filter_cons, List.filter_cons]
      rcases List.mem_cons.mp hp with h1 | h2
      · rw [← h1, hq, hr]
        simp only [List.length_cons]
        exact Nat.lt_succ_of_le (length_filter_mono q r hqr rest)
      · cases hqc : q c
        · cases hrc : r c
          · simpa using ih p h2 hq hr
          · simp only [List.length_cons]
            exact Nat.lt_succ_of_lt (ih p h2 hq hr)
        · rw [hqr c hqc]
          simpa using Nat.succ_lt_succ (ih p h2 hq hr)

/-! ## Claim theorems -/

theorem deck_split : ∀ (l : List String), l.length = 8 →
    l.take 4 ++ l.getD 4 "" :: l.drop 5 = l := by
  intro l h
  rcases l with _ | ⟨a1, l⟩
  · simp at h
  rcases l with _ | ⟨a2, l⟩
  · simp at h
  rcases l with _ | ⟨a3, l⟩
  · simp at h
  rcases l with _ | ⟨a4, l⟩
  · simp at h
  rcases l with _ | ⟨a5, l⟩
  · simp at h
  rcases l with _ | ⟨a6, l⟩
  · simp at h
  rcases l with _ | ⟨a7, l⟩
  · simp at h
  rcases l with _ | ⟨a8, l⟩
  · simp at h
  have hl : l = [] := by
    have h0 : l.length = 0 := by
      simp only [List.length_cons] at h
      omega
    exact List.length_eq_zero.mp h0
  subst hl
  rfl

/-- Claim C1, counterexample: the zone check of `SpawnUnit` accepts a spawn
on the caller's *own* defended half.  Actor `plA` is on team 0, whose
buildings stand at y = 26..29, and requests y = 20 > 16 with ample elixir;
the claim says this is rejected with no entity created, but the engine
creates one. -/
theorem C1_cex :
    plA.team = 0 ∧ (20 : ℚ) > 16 ∧ gA.entities = [] ∧
    (SpawnUnit "e1" plA "morphilina" 5 20 gA).entities.length = 1 := by
  refine ⟨rfl, by norm_num, rfl, ?_⟩
  norm_num [SpawnUnit, gA, plA, statsM, psA, unitsA, BridgeY, mapLookup,
    findCardIdx, spawnEntityInternal, NewGame]

/-- Claim C1, amended: the zone check rejects a spawn whose y-coordinate is
on the *opponent's* half — y < 16 for a team-0 actor (whose own buildings
stand at y = 26..29), y > 16 for a team-1 actor — silently and before any
resource, key, or hand check, leaving the state untouched. -/
theorem spec_C1 (eid : String) (player : Player) (key : String) (x y : ℚ)
    (g : GameInstance)
    (h : (player.team = 0 ∧ y < BridgeY) ∨ (player.team = 1 ∧ y > BridgeY)) :
    SpawnUnit eid player key x y g = g := by
  unfold SpawnUnit
  rw [if_pos h]

/-- Witness for C1: a team-0 actor spawning at y = 10 (< 16) is a no-op. -/
theorem spec_C1_witness : SpawnUnit "e1" plA "morphilina" 5 10 gA = gA :=
  spec_C1 "e1" plA "morphilina" 5 10 gA (Or.inl ⟨rfl, by norm_num [BridgeY]⟩)

/-- Claim C6: every rejection path of `SpawnUnit` — unknown unit key, no
tracked actor state, insufficient elixir, key not in hand — returns the
state completely unchanged (and the function has no error channel at
all). -/
theorem spec_C6 (eid : String) (player : Player) (key : String) (x y : ℚ)
    (g : GameInstance) :
    (mapLookup key g.unitData = none → SpawnUnit eid player key x y g = g) ∧
    (mapLookup player.id g.playerStates = none → SpawnUnit eid player key x y g = g) ∧
    (∀ stats ps, mapLookup key g.unitData = some stats →
       mapLookup player.id g.playerStates = some ps →
       ps.elixir < (stats.elixir : ℚ) → SpawnUnit eid player key x y g = g) ∧
    (∀ ps, mapLookup player.id g.playerStates = some ps →
       key ∉ ps.hand → SpawnUnit eid player key x y g = g) := by
  by_cases hz : (player.team = 0 ∧ y < BridgeY) ∨ (player.team = 1 ∧ y > BridgeY)
  · refine ⟨?_, ?_, ?_, ?_⟩ <;> intros <;> simp [SpawnUnit, hz]
  · refine ⟨?_, ?_, ?_, ?_⟩
    · intro h
      simp [SpawnUnit, hz, h]
    · intro h
      cases hu : mapLookup key g.unitData with
      | none => simp [SpawnUnit, hz, hu]
      | some stats => simp [SpawnUnit, hz, hu, h]
    · intro stats ps hu hp hlt
      simp [SpawnUnit, hz, hu, hp, hlt]
    · intro ps hp hmem
      cases hu : mapLookup key g.unitData with
      | none => simp [SpawnUnit, hz, hu]
      | some stats =>
          by_cases hlt : ps.elixir < (stats.elixir : ℚ)
          · simp [SpawnUnit, hz, hu, hp, hlt]
          · simp [SpawnUnit, hz, hu, hp, hlt, findCardIdx_eq_none hmem]

/-- Witness for C6: all four rejection paths at concrete inputs (unknown
key, untracked actor, 1 elixir against cost 3, key not in hand). -/
theorem spec_C6_witness :
    (SpawnUnit "e1" plA "zzz" 5 20 gA = gA) ∧
    (SpawnUnit "e1" plB "morphilina" 5 20 gA = gA) ∧
    (SpawnUnit "e1" plA "morphilina" 5 20 gPoor = gPoor) ∧
    (SpawnUnit "e1" plA "sasavot" 5 20 gA = gA) :=
  ⟨(spec_C6 "e1" plA "zzz" 5 20 gA).1 rfl,
   (spec_C6 "e1" plB "morphilina" 5 20 gA).2.1 rfl,
   (spec_C6 "e1" plA "morphilina" 5 20 gPoor).2.2.1 statsM psPoor rfl rfl
     (by norm_num [statsM, psPoor, psA]),
   (spec_C6 "e1" plA "sasavot" 5 20 gA).2.2.2 psA rfl (by decide)⟩

/-- Claim C2: a successful spawn (known key, tracked state, sufficient
elixir, key in hand, zone check passed) with a non-empty draw deck deducts
exactly the cost, replaces the matched hand slot with the current "next"
key, pops the deck head into "next", pushes the played key onto the deck
tail, keeps hand size 4 and deck size unchanged (so deck + hand + 1 is
constant), and appends exactly one entity at (x, y) owned by the actor. -/
theorem spec_C2 (eid : String) (player : Player) (key : String) (x y : ℚ)
    (g : GameInstance) (stats : UnitStats) (ps : PlayerState) (i : Nat)
    (d : String) (rest : List String)
    (hz : ¬((player.team = 0 ∧ y < BridgeY) ∨ (player.team = 1 ∧ y > BridgeY)))
    (hu : mapLookup key g.unitData = some stats)
    (hps : mapLookup player.id g.playerStates = some ps)
    (hel : ¬(ps.elixir < (stats.elixir : ℚ)))
    (hidx : findCardIdx key ps.hand = some i)
    (hdeck : ps.deck = d :: rest)
    (hhand : ps.hand.length = 4) :
    mapLookup player.id (SpawnUnit eid player key x y g).playerStates =
      some { elixir := ps.elixir - (stats.elixir : ℚ), hand := ps.hand.set i ps.next,
             next := d, deck := rest ++ [key] } ∧
    (SpawnUnit eid player key x y g).entities =
      g.entities ++ [newEntity eid key player.id player.team x y stats] ∧
    (ps.hand.set i ps.next).length = 4 ∧
    (rest ++ [key]).length = ps.deck.length ∧
    (rest ++ [key]).length + (ps.hand.set i ps.next).length + 1 =
      ps.deck.length + ps.hand.length + 1 := by
  have hrun := spawnUnit_run_cons eid player key x y g stats ps i d rest
    hz hu hps hel hidx hdeck
  rw [hrun]
  refine ⟨?_, ?_, ?_, ?_, ?_⟩
  · exact mapLookup_mapSet_isSome _ (by rw [hps]; rfl)
  · simp [spawnEntityInternal, lookupUnitD, hu]
  · simp [List.length_set, hhand]
  · rw [hdeck]
    simp
  · simp [List.length_set, hdeck, List.length_append]

/-- Witness for C2: the spec example — a team-0 actor with 10 elixir plays
"morphilina" (cost 3) at a legal coordinate; the economy rotates and one
entity is appended. -/
theorem spec_C2_witness :
    mapLookup plA.id (SpawnUnit "e1" plA "morphilina" 5 20 gA).playerStates =
      some { elixir := psA.elixir - ((statsM.elixir : Int) : ℚ),
             hand := psA.hand.set 0 psA.next,
             next := "classic_yuu", deck := ["murzik"] ++ ["morphilina"] } ∧
    (SpawnUnit "e1" plA "morphilina" 5 20 gA).entities =
      gA.entities ++ [newEntity "e1" "morphilina" plA.id plA.team 5 20 statsM] ∧
    (psA.hand.set 0 psA.next).length = 4 ∧
    (["murzik"] ++ ["morphilina"]).length = psA.deck.length ∧
    (["murzik"] ++ ["morphilina"]).length + (psA.hand.set 0 psA.next).length + 1 =
      psA.deck.length + psA.hand.length + 1 :=
  spec_C2 "e1" plA "morphilina" 5 20 gA statsM psA 0 "classic_yuu" ["murzik"]
    (by norm_num [plA, BridgeY]) rfl rfl (by norm_num [psA, statsM]) rfl rfl rfl

/-- Claim C10: a successful spawn with an *empty* draw deck replaces the
matched hand slot with "next" but leaves "next" and the deck unchanged, so
the played key is dropped from the rotation (it is in neither the new hand,
given a duplicate-free hand and a distinct "next", nor the deck, nor
"next") and the "next" key is duplicated into the hand. -/
theorem spec_C10 (eid : String) (player : Player) (key : String) (x y : ℚ)
    (g : GameInstance) (stats : UnitStats) (ps : PlayerState) (i : Nat)
    (hz : ¬((player.team = 0 ∧ y < BridgeY) ∨ (player.team = 1 ∧ y > BridgeY)))
    (hu : mapLookup key g.unitData = some stats)
    (hps : mapLookup player.id g.playerStates = some ps)
    (hel : ¬(ps.elixir < (stats.elixir : ℚ)))
    (hidx : findCardIdx key ps.hand = some i)
    (hdeck : ps.deck = []) :
    mapLookup player.id (SpawnUnit eid player key x y g).playerStates =
      some { elixir := ps.elixir - (stats.elixir : ℚ), hand := ps.hand.set i ps.next,
             next := ps.next, deck := [] } ∧
    (SpawnUnit eid player key x y g).entities =
      g.entities ++ [newEntity eid key player.id player.team x y stats] ∧
    ps.next ∈ ps.hand.set i ps.next ∧
    (ps.hand.Nodup → ps.next ≠ key → key ∉ ps.hand.set i ps.next) := by
  have hrun := spawnUnit_run_nil eid player key x y g stats ps i
    hz hu hps hel hidx hdeck
  have hv : ({ ps with elixir := ps.elixir - (stats.elixir : ℚ),
                       hand := ps.hand.set i ps.next } : PlayerState) =
      { elixir := ps.elixir - (stats.elixir : ℚ), hand := ps.hand.set i ps.next,
        next := ps.next, deck := [] } := by
    simp [hdeck]
  rw [hrun, hv]
  refine ⟨?_, ?_, ?_, ?_⟩
  · exact mapLookup_mapSet_isSome _ (by rw [hps]; rfl)
  · simp [spawnEntityInternal, lookupUnitD, hu]
  · exact mem_set_self ps.hand i ps.next (findCardIdx_get hidx).1
  · intro hnd hne
    exact not_mem_set_of_nodup ps.hand i key ps.next hnd (findCardIdx_get hidx).2 hne

/-- Witness for C10: the same actor with an emptied deck plays
"morphilina"; "next" and the deck stay put and the played key leaves the
rotation. -/
theorem spec_C10_witness :
    mapLookup plA.id (SpawnUnit "e1" plA "morphilina" 5 20 gE).playerStates =
      some { elixir := psE.elixir - ((statsM.elixir : Int) : ℚ),
             hand := psE.hand.set 0 psE.next,
             next := psE.next, deck := [] } ∧
    (SpawnUnit "e1" plA "morphilina" 5 20 gE).entities =
      gE.entities ++ [newEntity "e1" "morphilina" plA.id plA.team 5 20 statsM] ∧
    psE.next ∈ psE.hand.set 0 psE.next ∧
    (psE.hand.Nodup → psE.next ≠ "morphilina" →
      "morphilina" ∉ psE.hand.set 0 psE.next) :=
  spec_C10 "e1" plA "morphilina" 5 20 gE statsM psE 0
    (by norm_num [plA, BridgeY]) rfl rfl (by norm_num [psE, psA, statsM]) rfl rfl

/-- Claim C3: once elapsed time reaches the 210 s threshold during overtime
(or on any later tick while the tiebreaker flag is set and the match has
not finished), the tick enters the tiebreaker: the flag is set, every
building loses exactly 50*dt HP clamped at 0 (strictly decreasing while
positive), positions are untouched, non-building entities are untouched,
no elixir regenerates, and the instant some building reaches 0 the match
finishes with the opposing team as winner. -/
theorem spec_C3 (rsqrt : ℚ → ℚ) (now dt : ℚ) (g : GameInstance) (t : Int)
    (hgo : g.gameOver = false) (hdt : 0 < dt)
    (hph : g.isTiebreaker = true ∨
      (g.isOvertime = true ∧ g.isTiebreaker = false ∧
        DurationNormal + DurationOvertime ≤ g.gameTime + dt)) :
    (Update rsqrt now dt g).isTiebreaker = true ∧
    (Update rsqrt now dt g).gameTime = g.gameTime + dt ∧
    (Update rsqrt now dt g).entities = g.entities.map (drainEnt dt) ∧
    (Update rsqrt now dt g).playerStates = g.playerStates ∧
    (∀ e : Entity, (e.key = "king_tower" ∨ e.key = "princess_tower") →
       (drainEnt dt e).hp = (if e.hp - 50 * dt ≤ 0 then 0 else e.hp - 50 * dt) ∧
       (0 < e.hp → (drainEnt dt e).hp < e.hp) ∧
       (drainEnt dt e).x = e.x ∧ (drainEnt dt e).y = e.y) ∧
    (∀ e : Entity, ¬(e.key = "king_tower" ∨ e.key = "princess_tower") →
       drainEnt dt e = e) ∧
    ((∀ e ∈ g.entities, (e.key = "king_tower" ∨ e.key = "princess_tower") →
        50 * dt < e.hp) → (Update rsqrt now dt g).gameOver = false) ∧
    (g.resultSent = false →
     (∀ e ∈ g.entities, (e.key = "king_tower" ∨ e.key = "princess_tower") →
        e.hp - 50 * dt ≤ 0 → e.team = t) →
     (∃ e ∈ g.entities, (e.key = "king_tower" ∨ e.key = "princess_tower") ∧
        e.hp - 50 * dt ≤ 0) →
     (Update rsqrt now dt g).gameOver = true ∧
     (Update rsqrt now dt g).winnerTeam = (t + 1) % 2) := by
  have hpf : (phaseFlags { g with gameTime := g.gameTime + dt }).isTiebreaker = true := by
    rcases hph with h | ⟨hot, htb, ht⟩
    · rw [phaseFlags_of_tiebreaker
        (show ({ g with gameTime := g.gameTime + dt } : GameInstance).isTiebreaker = true from h)]
      exact h
    · rw [phaseFlags_tiebreaker_of_enter
        (show ({ g with gameTime := g.gameTime + dt } : GameInstance).isOvertime = true from hot)
        (show ({ g with gameTime := g.gameTime + dt } : GameInstance).isTiebreaker = false from htb)
        (show DurationNormal + DurationOvertime ≤
          ({ g with gameTime := g.gameTime + dt } : GameInstance).gameTime from ht)]
  have hup : Update rsqrt now dt g =
      drainStep dt (phaseFlags { g with gameTime := g.gameTime + dt }) := by
    rw [update_unfold rsqrt now dt g hgo, if_pos hpf]
  set gp := phaseFlags { g with gameTime := g.gameTime + dt } with hgpdef
  have hge : gp.entities = g.entities := phaseFlags_entities _
  have hgps : gp.playerStates = g.playerStates := phaseFlags_playerStates _
  have hggo : gp.gameOver = false := (phaseFlags_gameOver _).trans hgo
  have hgrs : gp.resultSent = g.resultSent := phaseFlags_resultSent _
  have hgt : gp.gameTime = g.gameTime + dt := phaseFlags_gameTime _
  rw [hup]
  refine ⟨?_, ?_, ?_, ?_, ?_, ?_, ?_, ?_⟩
  · exact (drainGo_isTiebreaker dt gp.entities gp).trans hpf
  · exact (drainGo_gameTime dt gp.entities gp).trans hgt
  · show gp.entities.map (drainEnt dt) = g.entities.map (drainEnt dt)
    rw [hge]
  · exact (drainGo_playerStates dt gp.entities gp).trans hgps
  · intro e hb
    refine ⟨?_, ?_, ?_, ?_⟩
    · unfold drainEnt
      rw [if_pos hb]
      split <;> rfl
    · intro hpos
      unfold drainEnt
      rw [if_pos hb]
      have h50 : 0 < 50 * dt := by positivity
      by_cases hh : e.hp - 50 * dt ≤ 0
      · rw [if_pos hh]
        exact hpos
      · rw [if_neg hh]
        show e.hp - 50 * dt < e.hp
        linarith
    · unfold drainEnt
      rw [if_pos hb]
      split <;> rfl
    · unfold drainEnt
      rw [if_pos hb]
      split <;> rfl
  · intro e hb
    unfold drainEnt
    rw [if_neg hb]
  · intro hall
    have hall2 : ∀ e ∈ gp.entities,
        (e.key = "king_tower" ∨ e.key = "princess_tower") →
        ¬(e.hp - 50 * dt ≤ 0) := by
      rw [hge]
      intro e he hb
      have := hall e he hb
      intro habs
      linarith
    show (drainGo dt gp gp.entities).gameOver = false
    rw [drainGo_noFinish dt gp.entities gp hall2]
    exact hggo
  · intro hrs hall hex
    have hall2 : ∀ e ∈ gp.entities,
        (e.key = "king_tower" ∨ e.key = "princess_tower") →
        e.hp - 50 * dt ≤ 0 → e.team = t := by
      rw [hge]
      exact hall
    have hex2 : ∃ e ∈ gp.entities,
        (e.key = "king_tower" ∨ e.key = "princess_tower") ∧
        e.hp - 50 * dt ≤ 0 := by
      rw [hge]
      exact hex
    have h := drainGo_winner dt t gp.entities gp hggo (hgrs.trans hrs) hall2 hex2
    exact h

/-- Witness for C3: the fixture `gTB` is in the tiebreaker with a damaged
team-0 king (1000 HP) and a team-1 princess at 40 HP; a dt = 2 tick drains
both, kills the princess, and finishes the match for team 0. -/
theorem spec_C3_witness :
    (Update (fun _ => 0) 0 2 gTB).isTiebreaker = true ∧
    (Update (fun _ => 0) 0 2 gTB).gameTime = gTB.gameTime + 2 ∧
    (Update (fun _ => 0) 0 2 gTB).entities = gTB.entities.map (drainEnt 2) ∧
    (Update (fun _ => 0) 0 2 gTB).playerStates = gTB.playerStates ∧
    (Update (fun _ => 0) 0 2 gTB).gameOver = true ∧
    (Update (fun _ => 0) 0 2 gTB).winnerTeam = (1 + 1) % 2 := by
  obtain ⟨h1, h2, h3, h4, _, _, _, hwin⟩ :=
    spec_C3 (fun _ => 0) 0 2 gTB 1 rfl (by norm_num) (Or.inl rfl)
  have hw := hwin rfl ?hall ?hex
  · exact ⟨h1, h2, h3, h4, hw.1, hw.2⟩
  case hall =>
    intro e he hb hle
    have hme : e = kingE ∨ e = prinE := by
      simpa [gTB, NewGame] using he
    rcases hme with h | h
    · subst h
      norm_num [kingE] at hle
    · subst h
      rfl
  case hex =>
    refine ⟨prinE, by simp [gTB, NewGame], Or.inr rfl, by norm_num [prinE]⟩

/-- Claim C8: the resource meter stays within [0, 10] — every tick keeps
every actor's meter in bounds (regeneration is clamped at the cap of 10 and
cannot push a non-negative meter negative for dt ≥ 0), and spawning, which
only ever deducts a known unit's non-negative cost when the meter covers
it, also preserves the bounds. -/
theorem spec_C8 :
    (∀ (rsqrt : ℚ → ℚ) (now dt : ℚ) (g : GameInstance), 0 ≤ dt →
      (∀ kv ∈ g.playerStates, 0 ≤ kv.2.elixir ∧ kv.2.elixir ≤ 10) →
      ∀ kv ∈ (Update rsqrt now dt g).playerStates,
        0 ≤ kv.2.elixir ∧ kv.2.elixir ≤ 10) ∧
    (∀ (eid : String) (player : Player) (key : String) (x y : ℚ)
      (g : GameInstance),
      (∀ ku ∈ g.unitData, (0 : Int) ≤ ku.2.elixir) →
      (∀ kv ∈ g.playerStates, 0 ≤ kv.2.elixir ∧ kv.2.elixir ≤ 10) →
      ∀ kv ∈ (SpawnUnit eid player key x y g).playerStates,
        0 ≤ kv.2.elixir ∧ kv.2.elixir ≤ 10) := by
  constructor
  · intro rsqrt now dt g hdt hbnd kv hkv
    by_cases hgo : g.gameOver = true
    · rw [update_of_gameOver rsqrt now dt hgo] at hkv
      exact hbnd kv hkv
    · have hgo' : g.gameOver = false := by
        cases hb : g.gameOver
        · rfl
        · exact absurd hb hgo
      rw [update_unfold rsqrt now dt g hgo'] at hkv
      set gp := phaseFlags { g with gameTime := g.gameTime + dt } with hgpdef
      have hgps : gp.playerStates = g.playerStates := phaseFlags_playerStates _
      by_cases htb : gp.isTiebreaker = true
      · rw [if_pos htb] at hkv
        have hds : (drainStep dt gp).playerStates = gp.playerStates :=
          drainGo_playerStates dt gp.entities gp
        rw [hds, hgps] at hkv
        exact hbnd kv hkv
      · rw [if_neg htb] at hkv
        have hmem : kv ∈ (regenStep dt gp).playerStates := by
          have hfs : (filterStep (regenStep dt gp)).playerStates =
              (regenStep dt gp).playerStates :=
            filterFinish_playerStates _ _ _
          by_cases hfo : (filterStep (regenStep dt gp)).gameOver = true
          · rw [if_pos hfo, hfs] at hkv
            exact hkv
          · rw [if_neg hfo] at hkv
            exact hfs ▸ hkv
        rw [regenStep_playerStates] at hmem
        rcases List.mem_map.mp hmem with ⟨kv0, hkv0, hkveq⟩
        have hkv0g : kv0 ∈ g.playerStates := by
          rw [← hgps]
          exact hkv0
        have hb0 := hbnd kv0 hkv0g
        rw [← hkveq]
        exact regenPlayer_bounds _ dt kv0.2 (regenRate_nonneg gp) hdt hb0.1 hb0.2
  · intro eid player key x y g hcost hbnd kv hkv
    rcases spawnUnit_playerStates_cases eid player key x y g with
      hcase | ⟨stats, ps, ps', hu, hps, hel, hpse, hset⟩
    · rw [hcase] at hkv
      exact hbnd kv hkv
    · rw [hset] at hkv
      rcases mem_mapSet hkv with hkv1 | hkv1
      · have hpsb := hbnd (player.id, ps) (mapLookup_mem hps)
        have hcost' : (0 : ℚ) ≤ ((stats.elixir : Int) : ℚ) := by
          have h := hcost (key, stats) (mapLookup_mem hu)
          exact_mod_cast h
        have helx := not_lt.mp hel
        rw [hkv1]
        constructor
        · show (0 : ℚ) ≤ ps'.elixir
          rw [hpse]
          have h1 := hpsb.1
          linarith
        · show ps'.elixir ≤ 10
          rw [hpse]
          have h2 := hpsb.2
          linarith
      · exact hbnd kv hkv1

/-- Witness for C8: the tick invariant at `gA` (full 10-elixir meter stays
at the cap through a tick) and the spawn invariant at `gPoor` (the rejected
spawn leaves the 1-elixir meter in bounds). -/
theorem spec_C8_witness :
    ((0 : ℚ) ≤ (("p1", psA) : String × PlayerState).2.elixir ∧
      (("p1", psA) : String × PlayerState).2.elixir ≤ 10) ∧
    ((0 : ℚ) ≤ (("p1", psPoor) : String × PlayerState).2.elixir ∧
      (("p1", psPoor) : String × PlayerState).2.elixir ≤ 10) :=
  ⟨spec_C8.1 (fun _ => 0) 0 (1/30) gA (by norm_num)
      (by
        intro kv hkv
        simp only [gA, NewGame, List.mem_singleton] at hkv
        rw [hkv]
        norm_num [psA])
      ("p1", psA)
      (by
        norm_num [Update, gA, NewGame, phaseFlags, DurationNormal, DurationOvertime,
          regenStep, regenPlayer, psA, filterStep, filterFinish, combatStep,
          towersTeam0, towersTeam1, drainStep, drainGo, drainEnt]),
   spec_C8.2 "e1" plA "morphilina" 5 20 gPoor
      (by
        intro ku hku
        simp only [gPoor, NewGame, unitsA, List.mem_cons, List.not_mem_nil,
          or_false] at hku
        rcases hku with h | h
        · rw [h]
          norm_num [statsM]
        · rw [h]
          norm_num [statsS])
      (by
        intro kv hkv
        simp only [gPoor, NewGame, List.mem_singleton] at hkv
        rw [hkv]
        norm_num [psPoor, psA])
      ("p1", psPoor)
      (by
        norm_num [SpawnUnit, gPoor, NewGame, plA, BridgeY, mapLookup, unitsA,
          statsM, psPoor, psA, findCardIdx])⟩

/-- Claim C4: (i) in every phase, a king tower at HP ≤ 0 (with every other
building comfortably alive, so the attribution is unambiguous) finishes the
match with the opposing team as winner; (ii) in the NORMAL phase a princess
tower at 0 HP never sets the game-over flag — it is only dropped from the
entity list, which strictly reduces its owner's active-tower count, the
count fed to the king-activation check of the combat step. -/
theorem spec_C4 :
    (∀ (rsqrt : ℚ → ℚ) (now dt : ℚ) (g : GameInstance) (k : Entity),
      g.gameOver = false → g.resultSent = false → 0 ≤ dt →
      k ∈ g.entities → k.key = "king_tower" → k.hp ≤ 0 →
      (∀ e ∈ g.entities, (e.key = "king_tower" ∨ e.key = "princess_tower") →
        e ≠ k → 50 * dt < e.hp) →
      (Update rsqrt now dt g).gameOver = true ∧
      (Update rsqrt now dt g).winnerTeam = (k.team + 1) % 2) ∧
    (∀ (rsqrt : ℚ → ℚ) (now dt : ℚ) (g : GameInstance) (p : Entity),
      g.gameOver = false → g.isOvertime = false → g.isTiebreaker = false →
      g.gameTime + dt < DurationNormal →
      (∀ e ∈ g.entities, e.key = "king_tower" → 0 < e.hp) →
      p ∈ g.entities → p.key = "princess_tower" → p.hp ≤ 0 →
      (Update rsqrt now dt g).gameOver = false ∧
      (Update rsqrt now dt g).winnerTeam = g.winnerTeam ∧
      (Update rsqrt now dt g).callbackLog = g.callbackLog ∧
      (Update rsqrt now dt g).entities =
        combatStep rsqrt now dt (towersTeam0 g.entities) (towersTeam1 g.entities)
          (g.entities.filter fun e => e.hp > 0) ∧
      p ∉ g.entities.filter (fun e => e.hp > 0) ∧
      (p.team = 0 → towersTeam0 g.entities <
        (g.entities.filter fun e => e.key = "princess_tower" ∧ e.team = 0).length) ∧
      (¬p.team = 0 → towersTeam1 g.entities <
        (g.entities.filter fun e => e.key = "princess_tower" ∧ ¬e.team = 0).length)) := by
  constructor
  · intro rsqrt now dt g k hgo hrs hdt hk hkey hkhp hothers
    rw [update_unfold rsqrt now dt g hgo]
    set gp := phaseFlags { g with gameTime := g.gameTime + dt } with hgpdef
    have hge : gp.entities = g.entities := phaseFlags_entities _
    have hggo : gp.gameOver = false := (phaseFlags_gameOver _).trans hgo
    have hgrs : gp.resultSent = false := (phaseFlags_resultSent _).trans hrs
    have h50 : (0 : ℚ) ≤ 50 * dt := mul_nonneg (by norm_num) hdt
    by_cases htb : gp.isTiebreaker = true
    · rw [if_pos htb]
      have hall : ∀ e ∈ gp.entities,
          (e.key = "king_tower" ∨ e.key = "princess_tower") →
          e.hp - 50 * dt ≤ 0 → e.team = k.team := by
        rw [hge]
        intro e he hb hle
        by_cases hek : e = k
        · rw [hek]
        · exfalso
          have := hothers e he hb hek
          linarith
      have hex : ∃ e ∈ gp.entities,
          (e.key = "king_tower" ∨ e.key = "princess_tower") ∧
          e.hp - 50 * dt ≤ 0 := by
        rw [hge]
        exact ⟨k, hk, Or.inl hkey, by linarith⟩
      have h := drainGo_winner dt k.team gp.entities gp hggo hgrs hall hex
      exact ⟨h.1, h.2⟩
    · rw [if_neg htb]
      have hg2go : (regenStep dt gp).gameOver = false := hggo
      have hg2rs : (regenStep dt gp).resultSent = false := hgrs
      have hall : ∀ e ∈ (regenStep dt gp).entities, ¬(e.hp > 0) →
          (e.key = "king_tower" ∨
            (((regenStep dt gp).isOvertime || (regenStep dt gp).isTiebreaker) = true ∧
              e.key = "princess_tower")) →
          e.team = k.team := by
        intro e he hhp hky
        have he' : e ∈ g.entities := by
          rw [← hge]
          exact he
        by_cases hek : e = k
        · rw [hek]
        · exfalso
          have hb : e.key = "king_tower" ∨ e.key = "princess_tower" := by
            rcases hky with h | h
            · exact Or.inl h
            · exact Or.inr h.2
          have := hothers e he' hb hek
          exact hhp (by linarith)
      have hex : ∃ e ∈ (regenStep dt gp).entities, ¬(e.hp > 0) ∧
          (e.key = "king_tower" ∨
            (((regenStep dt gp).isOvertime || (regenStep dt gp).isTiebreaker) = true ∧
              e.key = "princess_tower")) := by
        refine ⟨k, ?_, not_lt.mpr hkhp, Or.inl hkey⟩
        show k ∈ gp.entities
        rw [hge]
        exact hk
      have h := filterFinish_winner ((regenStep dt gp).isOvertime || (regenStep dt gp).isTiebreaker)
        k.team (regenStep dt gp).entities (regenStep dt gp) hg2go hg2rs hall hex
      have hfgo : (filterStep (regenStep dt gp)).gameOver = true := h.1
      rw [if_pos hfgo]
      exact ⟨h.1, h.2⟩
  · intro rsqrt now dt g p hgo hot htb htime hkings hp hpkey hphp
    rw [update_unfold rsqrt now dt g hgo]
    have hgp : phaseFlags { g with gameTime := g.gameTime + dt } =
        { g with gameTime := g.gameTime + dt } :=
      phaseFlags_normal
        (show ({ g with gameTime := g.gameTime + dt } : GameInstance).isOvertime = false from hot)
        (show ({ g with gameTime := g.gameTime + dt } : GameInstance).isTiebreaker = false from htb)
        (show ({ g with gameTime := g.gameTime + dt } : GameInstance).gameTime < DurationNormal from htime)
    rw [hgp]
    have htb2 : ¬(({ g with gameTime := g.gameTime + dt } : GameInstance).isTiebreaker = true) := by
      rw [show ({ g with gameTime := g.gameTime + dt } : GameInstance).isTiebreaker = false from htb]
      exact Bool.false_ne_true
    rw [if_neg htb2]
    set g2 := regenStep dt { g with gameTime := g.gameTime + dt } with hg2def
    have hsd : (g2.isOvertime || g2.isTiebreaker) = false := by
      show (g.isOvertime || g.isTiebreaker) = false
      rw [hot, htb]
      rfl
    have hnof : filterFinish (g2.isOvertime || g2.isTiebreaker) g2 g2.entities = g2 := by
      apply filterFinish_noFinish
      intro e he hhp habs
      rcases habs with hkk | hss
      · exact hhp (hkings e he hkk)
      · have hx := hss.1
        rw [hsd] at hx
        exact absurd hx Bool.false_ne_true
    have hfs : filterStep g2 = { g2 with entities := g2.entities.filter (fun e => e.hp > 0) } := by
      unfold filterStep
      rw [hnof]
    have hfgo : (filterStep g2).gameOver = false := by
      rw [hfs]
      exact hgo
    rw [if_neg (by rw [hfgo]; exact Bool.false_ne_true)]
    refine ⟨hfgo, ?_, ?_, ?_, ?_, ?_, ?_⟩
    · rw [hfs]
      rfl
    · rw [hfs]
      rfl
    · rw [hfs]
      rfl
    · intro habs
      rcases List.mem_filter.mp habs with ⟨_, hpred⟩
      have := of_decide_eq_true hpred
      linarith
    · intro hteam
      unfold towersTeam0
      apply length_filter_lt_of_strong _ _ ?_ g.entities p hp ?_ ?_
      · intro a ha
        have h := of_decide_eq_true ha
        exact decide_eq_true ⟨h.2.1, h.2.2⟩
      · exact decide_eq_false fun h => absurd h.1 (not_lt.mpr hphp)
      · exact decide_eq_true ⟨hpkey, hteam⟩
    · intro hteam
      unfold towersTeam1
      apply length_filter_lt_of_strong _ _ ?_ g.entities p hp ?_ ?_
      · intro a ha
        have h := of_decide_eq_true ha
        exact decide_eq_true ⟨h.2.1, h.2.2⟩
      · exact decide_eq_false fun h => absurd h.1 (not_lt.mpr hphp)
      · exact decide_eq_true ⟨hpkey, hteam⟩

/-- Witness for C4: at `gN` (normal phase, lone dead team-1 king) the match
finishes for team 0; at `gP` (normal phase, dead team-1 princess, two live
kings) the flag stays down, the princess is filtered out, and team 1's
active-tower count drops below its total princess count. -/
theorem spec_C4_witness :
    ((Update (fun _ => 0) 0 (1/30) gN).gameOver = true ∧
     (Update (fun _ => 0) 0 (1/30) gN).winnerTeam = (deadKing.team + 1) % 2) ∧
    ((Update (fun _ => 0) 0 (1/30) gP).gameOver = false ∧
     (Update (fun _ => 0) 0 (1/30) gP).winnerTeam = gP.winnerTeam ∧
     (Update (fun _ => 0) 0 (1/30) gP).callbackLog = gP.callbackLog ∧
     (Update (fun _ => 0) 0 (1/30) gP).entities =
       combatStep (fun _ => 0) 0 (1/30) (towersTeam0 gP.entities)
         (towersTeam1 gP.entities) (gP.entities.filter fun e => e.hp > 0) ∧
     prinDead ∉ gP.entities.filter (fun e => e.hp > 0) ∧
     (prinDead.team = 0 → towersTeam0 gP.entities <
       (gP.entities.filter fun e => e.key = "princess_tower" ∧ e.team = 0).length) ∧
     (¬prinDead.team = 0 → towersTeam1 gP.entities <
       (gP.entities.filter fun e => e.key = "princess_tower" ∧ ¬e.team = 0).length)) :=
  ⟨spec_C4.1 (fun _ => 0) 0 (1/30) gN deadKing rfl rfl (by norm_num)
      (by simp [gN, NewGame]) rfl (by norm_num [deadKing, kingE])
      (by
        intro e he hb hne
        simp only [gN, NewGame, List.mem_singleton] at he
        exact absurd he hne),
   spec_C4.2 (fun _ => 0) 0 (1/30) gP prinDead rfl rfl rfl
      (by norm_num [gP, NewGame, DurationNormal])
      (by
        intro e he hk
        simp only [gP, NewGame, List.mem_cons, List.not_mem_nil, or_false] at he
        rcases he with h | h | h <;> subst h
        · exact absurd (show ("princess_tower" : String) = "king_tower" from hk)
            (by decide)
        · norm_num [kingE]
        · norm_num [kingA1, kingE])
      (by simp [gP, NewGame]) rfl (by norm_num [prinDead, prinE])⟩

/-- Claim C7: the first `finishGame` call on a fresh match sets the
game-over flag, records the winner, and logs exactly one settlement
dispatch (with that winner and the membership snapshot); any later call —
with any winner — is a complete no-op. -/
theorem spec_C7 (w w2 : Int) (g : GameInstance) (hgo : g.gameOver = false)
    (hrs : g.resultSent = false) (hcb : g.hasOnGameOver = true) :
    (finishGame w g).gameOver = true ∧
    (finishGame w g).winnerTeam = w ∧
    (finishGame w g).callbackLog = g.callbackLog ++ [(w, g.players)] ∧
    finishGame w2 (finishGame w g) = finishGame w g := by
  have h1 : finishGame w g =
      { g with gameOver := true, winnerTeam := w, resultSent := true,
               callbackLog := g.callbackLog ++ [(w, g.players)] } := by
    rw [finishGame_fresh hgo hrs, if_pos]
    rw [hcb]
  rw [h1]
  exact ⟨rfl, rfl, rfl, by simp [finishGame]⟩

/-- Witness for C7 at a concrete fresh game with a registered callback. -/
theorem spec_C7_witness :
    (finishGame 0 gCB).gameOver = true ∧
    (finishGame 0 gCB).winnerTeam = 0 ∧
    (finishGame 0 gCB).callbackLog = gCB.callbackLog ++ [(0, gCB.players)] ∧
    finishGame 1 (finishGame 0 gCB) = finishGame 0 gCB :=
  spec_C7 0 1 gCB rfl rfl rfl

/-- Claim C5, counterexample: `Reset` gives every registered actor a meter
of 5.0, not the full cap of 10 — the first field of the
`&PlayerState{5.0, ...}` literal in `Reset`/`InitPlayer` is the elixir. -/
theorem C5_cex :
    (Reset (fun _ => baseDeck) (fun _ => "t") gA).playerStates =
      [("p1", { elixir := 5,
                hand := ["morphilina", "dangerlyoha", "yuuechka", "morphe"],
                next := "classic_morphe",
                deck := ["classic_yuu", "sasavot", "murzik"] })] ∧
    ((5 : ℚ) ≠ 10) := by
  constructor
  · norm_num [Reset, gA, NewGame, baseDeck, freshPlayerState,
      InitTowersInternal, spawnEntityInternal]
  · norm_num

/-- Claim C5, amended: actor initialization (on admit) and `Reset` each set
every registered actor's economy to a meter of 5 (half the cap of 10, not a
full meter) together with a freshly shuffled hand of 4 distinct keys, one
"next" key and the 3 remaining deck keys; after `Reset` the entity list is
exactly the 6 starting buildings, elapsed time is 0, and the game-over,
overtime and tiebreaker flags are cleared (winner reset to -1). -/
theorem spec_C5 :
    (∀ (shuffle : String → List String) (ids : Nat → String) (g : GameInstance),
      (Reset shuffle ids g).playerStates =
        g.playerStates.map (fun kv => (kv.1, freshPlayerState (shuffle kv.1))) ∧
      (Reset shuffle ids g).entities.map (fun e => (e.key, e.team, e.x, e.y)) =
        [("king_tower", 0, 9, 29), ("princess_tower", 0, 3.5, 26),
         ("princess_tower", 0, 14.5, 26), ("king_tower", 1, 9, 3),
         ("princess_tower", 1, 3.5, 6), ("princess_tower", 1, 14.5, 6)] ∧
      (Reset shuffle ids g).entities.length = 6 ∧
      (Reset shuffle ids g).gameTime = 0 ∧
      (Reset shuffle ids g).gameOver = false ∧
      (Reset shuffle ids g).isOvertime = false ∧
      (Reset shuffle ids g).isTiebreaker = false ∧
      (Reset shuffle ids g).winnerTeam = -1 ∧
      (Reset shuffle ids g).resultSent = false) ∧
    (∀ d : List String, d.Perm baseDeck →
      (freshPlayerState d).elixir = 5 ∧
      (freshPlayerState d).hand.length = 4 ∧
      (freshPlayerState d).hand.Nodup ∧
      (freshPlayerState d).deck.length = 3 ∧
      (freshPlayerState d).hand ++ (freshPlayerState d).next ::
        (freshPlayerState d).deck = d) ∧
    (∀ (shuffled : List String) (pid : String) (g : GameInstance),
      mapLookup pid (InitPlayer shuffled pid g).playerStates =
        some (freshPlayerState shuffled)) := by
  refine ⟨?_, ?_, ?_⟩
  · intro shuffle ids g
    refine ⟨rfl, ?_, ?_, rfl, rfl, rfl, rfl, rfl, rfl⟩ <;>
      simp [Reset, InitTowersInternal, spawnEntityInternal, newEntity]
  · intro d hperm
    have hlen : d.length = 8 := by
      rw [hperm.length_eq]
      rfl
    have hnd : d.Nodup := (hperm.nodup_iff).mpr (by decide)
    refine ⟨rfl, ?_, ?_, ?_, ?_⟩
    · show (d.take 4).length = 4
      rw [List.length_take, hlen]
      rfl
    · exact (List.take_sublist 4 d).nodup hnd
    · show (d.drop 5).length = 3
      rw [List.length_drop, hlen]
    · exact deck_split d hlen
  · intro shuffled pid g
    exact mapLookup_mapInsert_self pid _ g.playerStates

/-- Witness for C5 (amended): `Reset` on the concrete `gA` and the identity
shuffle of the base deck, plus admit-time initialization of a fresh actor. -/
theorem spec_C5_witness :
    ((Reset (fun _ => baseDeck) (fun _ => "t") gA).playerStates =
        gA.playerStates.map (fun kv => (kv.1, freshPlayerState baseDeck)) ∧
      (Reset (fun _ => baseDeck) (fun _ => "t") gA).entities.map
          (fun e => (e.key, e.team, e.x, e.y)) =
        [("king_tower", 0, 9, 29), ("princess_tower", 0, 3.5, 26),
         ("princess_tower", 0, 14.5, 26), ("king_tower", 1, 9, 3),
         ("princess_tower", 1, 3.5, 6), ("princess_tower", 1, 14.5, 6)] ∧
      (Reset (fun _ => baseDeck) (fun _ => "t") gA).entities.length = 6 ∧
      (Reset (fun _ => baseDeck) (fun _ => "t") gA).gameTime = 0 ∧
      (Reset (fun _ => baseDeck) (fun _ => "t") gA).gameOver = false ∧
      (Reset (fun _ => baseDeck) (fun _ => "t") gA).isOvertime = false ∧
      (Reset (fun _ => baseDeck) (fun _ => "t") gA).isTiebreaker = false ∧
      (Reset (fun _ => baseDeck) (fun _ => "t") gA).winnerTeam = -1 ∧
      (Reset (fun _ => baseDeck) (fun _ => "t") gA).resultSent = false) ∧
    ((freshPlayerState baseDeck).elixir = 5 ∧
      (freshPlayerState baseDeck).hand.length = 4 ∧
      (freshPlayerState baseDeck).hand.Nodup ∧
      (freshPlayerState baseDeck).deck.length = 3 ∧
      (freshPlayerState baseDeck).hand ++ (freshPlayerState baseDeck).next ::
        (freshPlayerState baseDeck).deck = baseDeck) ∧
    (mapLookup "p9" (InitPlayer baseDeck "p9" gA).playerStates =
        some (freshPlayerState baseDeck)) :=
  ⟨spec_C5.1 (fun _ => baseDeck) (fun _ => "t") gA,
   spec_C5.2.1 baseDeck (List.Perm.refl baseDeck),
   spec_C5.2.2 baseDeck "p9" gA⟩

/-- Claim C9, counterexample: when reading the unit-definitions file fails,
`LoadUnits` returns the error *before* touching the static type table, so
the king and princess tower entries are absent (the hardcoded stats are
installed only on the success path), and the towers the server then spawns
have 0 HP — exactly what the warning in `main.go` ("Towers might have
0 HP.") anticipates.  This refutes the claim that the two building tiers
retain their hardcoded fallback stats in the table. -/
theorem C9_cex :
    (LoadUnits none NewGame).2 = false ∧
    mapLookup "king_tower" (LoadUnits none NewGame).1.unitData = none ∧
    mapLookup "princess_tower" (LoadUnits none NewGame).1.unitData = none ∧
    (serverStartTowers none (fun _ => "t") NewGame).entities.map (fun e => e.hp) =
      [0, 0, 0, 0, 0, 0] := by
  refine ⟨rfl, rfl, rfl, ?_⟩
  norm_num [serverStartTowers, LoadUnits, NewGame, InitTowersInternal,
    spawnEntityInternal, newEntity, lookupUnitD, mapLookup, UnitStats.zero]

/-- Claim C9, amended: a failed read is non-fatal — `LoadUnits` returns the
error and `main.go` only logs a warning and proceeds — and it leaves the
type table exactly as it was: spawnable units are absent AND the two
building tiers are absent too (towers spawned afterwards have 0 HP); the
hardcoded king/princess stats are present only after a successful load. -/
theorem spec_C9 (g : GameInstance) (ids : Nat → String)
    (units : List (String × UnitStats)) :
    LoadUnits none g = (g, false) ∧
    (serverStartTowers none ids NewGame).entities.map (fun e => e.hp) =
      [0, 0, 0, 0, 0, 0] ∧
    mapLookup "king_tower" (LoadUnits (some units) g).1.unitData =
      some kingTowerStats ∧
    mapLookup "princess_tower" (LoadUnits (some units) g).1.unitData =
      some princessTowerStats := by
  refine ⟨rfl, ?_, ?_, ?_⟩
  · norm_num [serverStartTowers, LoadUnits, NewGame, InitTowersInternal,
      spawnEntityInternal, newEntity, lookupUnitD, mapLookup, UnitStats.zero]
  · show mapLookup "king_tower"
      (mapInsert "princess_tower" princessTowerStats
        (mapInsert "king_tower" kingTowerStats
          (units.map fun kv => (kv.1, { kv.2 with key := kv.1 })))) =
      some kingTowerStats
    rw [mapLookup_mapInsert_ne (by decide) princessTowerStats,
      mapLookup_mapInsert_self]
  · exact mapLookup_mapInsert_self _ _ _

end Chibiki
